import Mathlib

/-!
Verification of `tapem.py`, a streaming TAP (Test Anything Protocol)
validator and summarizer.

The Python source is embedded shallowly:

* Python strings are Lean `String`s; the relevant `str` methods
  (`strip`, `split`, `startswith`, `replace`, substring test, `int(...)`)
  are modelled as executable functions on `List Char`.
* The mutable `Tapper` object becomes a `Tapper` structure threaded
  explicitly through each operation.
* Statements that can raise (`int(...)` in `maybe_range`, the index
  accesses `split()[1]` / `split()[2]` in `process_line`) are modelled
  with `Option`: a `none` state means the Python exception propagated
  and the program aborted.
* Text written to standard output by `process_line` (the `print` in
  `maybe_range` and the echo `print(line, end="")`) is collected in a
  `List String` of write events returned alongside the new state.
-/

/-- Python whitespace characters recognised by `str.strip()` / `str.split()`
(ASCII subset). -/
def pyIsSpace (c : Char) : Bool :=
  c = ' ' || c = '\t' || c = '\n' || c = '\r' || c = Char.ofNat 11 || c = Char.ofNat 12

/-- Left strip: drop leading whitespace, as in Python `str.lstrip()`. -/
def lstripL (l : List Char) : List Char := l.dropWhile pyIsSpace

/-- Right strip: drop trailing whitespace, as in Python `str.rstrip()`. -/
def rstripL (l : List Char) : List Char := (l.reverse.dropWhile pyIsSpace).reverse

/-- Python `str.strip()` on the character list. -/
def pyStripL (l : List Char) : List Char := rstripL (lstripL l)

/-- Python `str.strip()`. -/
def pyStrip (s : String) : String := ⟨pyStripL s.data⟩

/-- Worker for Python `str.split()` (split on whitespace runs, no empty
tokens); `acc` holds the current token reversed. -/
def splitWsAux : List Char → List Char → List (List Char)
  | [], acc => if acc = [] then [] else [acc.reverse]
  | c :: cs, acc =>
    if pyIsSpace c then
      if acc = [] then splitWsAux cs [] else acc.reverse :: splitWsAux cs []
    else
      splitWsAux cs (c :: acc)

/-- Python `str.split()` with no separator argument. -/
def pySplit (s : String) : List String := (splitWsAux s.data []).map fun l => ⟨l⟩

/-- Python `str.startswith(p)`. -/
def pyStartsWith (s p : String) : Bool := p.data.isPrefixOf s.data

/-- Substring containment on character lists (`needle in hay` in Python). -/
def containsSubL (n : List Char) : List Char → Bool
  | [] => n.isPrefixOf []
  | c :: cs => n.isPrefixOf (c :: cs) || containsSubL n cs

/-- Python `needle in hay` for strings. -/
def pySubstr (needle hay : String) : Bool := containsSubL needle.data hay.data

/-- Fuelled worker for Python `str.replace(old, new)` with non-empty `old`:
scan left to right, replacing non-overlapping occurrences.  Fuel equal to
the length of the scanned list is always sufficient. -/
def replaceFuelL (old new : List Char) : Nat → List Char → List Char
  | _, [] => []
  | 0, l => l
  | f + 1, c :: cs =>
    if old.isPrefixOf (c :: cs) then
      new ++ replaceFuelL old new f (cs.drop (old.length - 1))
    else
      c :: replaceFuelL old new f cs

/-- Worker for Python `str.replace("", new)`: inserts `new` before every
character and at the end. -/
def replaceEmptyL (new : List Char) : List Char → List Char
  | [] => new
  | c :: cs => new ++ (c :: replaceEmptyL new cs)

/-- Python `str.replace(old, new)` on character lists. -/
def pyReplaceL (hay old new : List Char) : List Char :=
  if old = [] then replaceEmptyL new hay else replaceFuelL old new hay.length hay

/-- Python `str.replace(old, new)`. -/
def pyReplace (hay old new : String) : String := ⟨pyReplaceL hay.data old.data new.data⟩

/-- Numeric value of a decimal digit list (only meaningful on digits). -/
def digitsVal (l : List Char) : Nat := l.foldl (fun a c => 10 * a + (c.toNat - 48)) 0

/-- Parse a non-empty all-digit list as a natural number, else `none`. -/
def parseNatDigits (l : List Char) : Option Nat :=
  if l.isEmpty then none
  else if l.all Char.isDigit then some (digitsVal l) else none

/-- Python `int(s)` on a string: strip whitespace, optional sign, decimal
digits; raises (here: `none`) otherwise. -/
def pyIntL (l0 : List Char) : Option Int :=
  let l := pyStripL l0
  if l = [] then none
  else if l.headD ' ' = '+' then (parseNatDigits l.tail).map Int.ofNat
  else if l.headD ' ' = '-' then (parseNatDigits l.tail).map fun n => -(n : Int)
  else (parseNatDigits l).map Int.ofNat

/-- Python `int(s)`. -/
def pyInt (s : String) : Option Int := pyIntL s.data

/-- Fuelled decimal printer worker: digits of `n` (empty on `n = 0`).
Fuel `n` is always sufficient since `n / 10 < n` for `0 < n`. -/
def natReprAux : Nat → Nat → List Char
  | 0, _ => []
  | _, 0 => []
  | f + 1, n => natReprAux f (n / 10) ++ [Nat.digitChar (n % 10)]

/-- Decimal representation of a natural number as a character list. -/
def natRepr (n : Nat) : List Char := if n = 0 then ['0'] else natReprAux n n

/-- Decimal representation of a natural number as a string. -/
def natReprS (n : Nat) : String := ⟨natRepr n⟩

/-- Python `range(a, b + 1)` as the list `[a, a+1, ..., b]` of integers. -/
def intRange (a b : Int) : List Int :=
  (List.range (b + 1 - a).toNat).map fun (i : Nat) => a + (i : Int)

/-- The symbol table type: one glyph per semantic tag (`self.emoji` /
`self.ascii` dictionaries in the source). -/
structure Theme where
  success : String
  failure : String
  tap : String
  tap_error : String
  great_success : String
  disaster : String
  catastrophe : String
  attention : String
deriving DecidableEq, Repr

/-- The default symbolic (emoji) theme table. -/
def emojiTheme : Theme where
  success := "✅"
  failure := "❌"
  tap := "🚰"
  tap_error := "🚱"
  great_success := "❤️"
  disaster := "🔥"
  catastrophe := "💥"
  attention := "⚠️"

/-- The ASCII theme table. -/
def asciiTheme : Theme where
  success := ":-)"
  failure := ":-("
  tap := "^.^"
  tap_error := "o.O"
  great_success := "<3 "
  disaster := ">.<"
  catastrophe := "v.v"
  attention := "!! "

/-- A value stored in `self.numbers`: the parsed `int`, or the raw token
string when `int(...)` failed (the source keeps the unparsed string). -/
inductive PyNum where
  | int (n : Int)
  | str (s : String)
deriving DecidableEq, Repr

/-- Python `str(num)` as used in the error-message formatting. -/
def pyNumStr : PyNum → String
  | .int n => toString n
  | .str s => s

/-- Python `num in self.range` where `self.range` is a list of ints:
an `int` compares numerically, a `str` is never equal to an int. -/
def numInIntList : PyNum → List Int → Bool
  | .int n, l => l.contains n
  | .str _, _ => false

/-- The `Tapper` object state. -/
structure Tapper where
  errors : List String
  successes : List String
  results : List String
  numbers : List PyNum
  range : List Int
  tap_errors : List String
  error_count : Int
  emoji : Theme
  ascii : Theme
deriving DecidableEq, Repr

/-- `Tapper.__init__`. -/
def Tapper.init : Tapper where
  errors := []
  successes := []
  results := []
  numbers := []
  range := []
  tap_errors := []
  error_count := -1
  emoji := emojiTheme
  ascii := asciiTheme

/-- `Tapper.set_ascii`. -/
def Tapper.set_ascii (t : Tapper) : Tapper := { t with emoji := t.ascii }

/-- `prefixed(string, emoji)`: `"{}  | {}".format(emoji, string)`. -/
def prefixed (s e : String) : String := e ++ "  | " ++ s

/-- `Tapper.found_number(num)`: validate an extracted test-number token.
The `int(num)` failure is caught: the code appends an error and
continues with the raw string token. -/
def Tapper.found_number (t : Tapper) (numTok : String) : Tapper :=
  let p : PyNum × Tapper :=
    match pyInt numTok with
    | some n => (PyNum.int n, t)
    | none =>
      (PyNum.str numTok,
        { t with tap_errors :=
            t.tap_errors ++ ["Invalid test number: '" ++ numTok ++ "'"] })
  let num := p.1
  let t := p.2
  let t :=
    if t.range.length = 0 then
      { t with tap_errors :=
          t.tap_errors ++ ["No test range defined before result no. " ++ pyNumStr num] }
    else if ¬ numInIntList num t.range then
      { t with tap_errors :=
          t.tap_errors ++
            ["Test result " ++ pyNumStr num ++ " doesn't fit into any previous range"] }
    else t
  if num ∈ t.numbers then
    { t with tap_errors :=
        t.tap_errors ++ ["Multiple results for test no. " ++ pyNumStr num] }
  else
    { t with numbers := t.numbers ++ [num] }

/-- The `for num in new_range` loop body of `maybe_range`: union each
number into `self.range`, flagging overlaps. -/
def Tapper.addRange (t : Tapper) (word : String) : List Int → Tapper
  | [] => t
  | num :: rest =>
    if num ∈ t.range then
      ({ t with tap_errors :=
          t.tap_errors ++
            ["Overlapping range '" ++ word ++ "' at '" ++ toString num ++ "'"] }).addRange
        word rest
    else
      ({ t with range := t.range ++ [num] }).addRange word rest

/-- `Tapper.maybe_range(word)`.  Returns the list of writes to standard
output (the unconditional `print(processed)`) and the new state, or
`none` when `int(parts[0])` / `int(parts[1])` raises `ValueError`. -/
def Tapper.maybe_range (t : Tapper) (word : String) : List String × Option Tapper :=
  let processed := pyReplace word ".." " "
  let out := [processed ++ "\n"]
  if pySubstr "." processed then (out, some t)
  else
    let parts := pySplit processed
    if parts.length ≠ 2 then (out, some t)
    else
      match pyInt (parts.getD 0 ""), pyInt (parts.getD 1 "") with
      | some a, some b =>
        if a > b then
          (out, some { t with tap_errors := t.tap_errors ++ ["Invalid range: " ++ word] })
        else
          (out, some (t.addRange word (intRange a b)))
      | _, _ => (out, none)

/-- `Tapper.process_line(line)`.  Returns the writes to standard output
(in order) and the new state; `none` when an exception propagated
(`IndexError` on a short `ok` / `not ok` line, or `ValueError` from
`maybe_range`). -/
def Tapper.process_line (t : Tapper) (line : String) : List String × Option Tapper :=
  let stripped := pyStrip line
  let branch : Option (Option String × Tapper) :=
    if pyStartsWith stripped "ok" then
      match (pySplit stripped).get? 1 with
      | none => none
      | some numTok =>
        let result := prefixed stripped t.emoji.success
        some (some numTok,
          { t with successes := t.successes ++ [result],
                   results := t.results ++ [result] })
    else if pyStartsWith stripped "not ok" then
      match (pySplit stripped).get? 2 with
      | none => none
      | some numTok =>
        let result := prefixed stripped t.emoji.failure
        some (some numTok,
          { t with errors := t.errors ++ [result],
                   results := t.results ++ [result] })
    else
      some (none, t)
  match branch with
  | none => ([], none)
  | some (number, t) =>
    let t :=
      match number with
      | some n => t.found_number n
      | none => t
    let seq := pySplit stripped
    if seq.length > 0 ∧ pySubstr ".." (seq.getD 0 "") then
      match t.maybe_range (seq.getD 0 "") with
      | (out1, none) => (out1, none)
      | (out1, some t) => (out1 ++ [line], some t)
    else
      ([line], some t)

/-- `Tapper.drain(line_list=lines)`: process each line in order; an
exception aborts the run (later lines are not processed). -/
def Tapper.drain (t : Tapper) : List String → List String × Option Tapper
  | [] => ([], some t)
  | l :: ls =>
    match t.process_line l with
    | (out, none) => (out, none)
    | (out, some t') =>
      let rest := t'.drain ls
      (out ++ rest.1, rest.2)

/-- `Tapper.finalize()`. -/
def Tapper.finalize (t : Tapper) : Tapper :=
  let errors := t.errors.length
  let results := t.results.length
  let numbers := t.numbers.length
  let test_range := t.range.length
  let t :=
    if test_range ≤ 0 then
      { t with tap_errors := t.tap_errors ++ ["No test range found"] }
    else t
  let t :=
    if results ≤ 0 then
      { t with tap_errors := t.tap_errors ++ ["No test results found"] }
    else t
  let t :=
    if numbers > test_range ∨ results > test_range then
      { t with tap_errors :=
          t.tap_errors ++
            ["More test results than possible for test range: " ++
              toString (max numbers results) ++ "/" ++ toString test_range] }
    else t
  { t with error_count := (errors : Int) + t.tap_errors.length }

/-- `Tapper.summarize()`.  The generator first replaces `self.tap_errors`
with disaster-prefixed copies (a state mutation), then asserts
`error_count >= 0`; the second component is `none` when the assertion
fails (the mutation has already happened). -/
def Tapper.summarize (t : Tapper) : Tapper × Option (List String) :=
  let e := t.emoji
  let t := { t with tap_errors := t.tap_errors.map fun x => prefixed x e.disaster }
  if t.error_count < 0 then (t, none)
  else
    let block1 :=
      if t.results ≠ [] then ["", prefixed "TAP Test results:" e.tap] ++ t.results else []
    let block2 :=
      if t.errors ≠ [] then ["", prefixed "Test failures: " e.attention] ++ t.errors else []
    let block3 :=
      if t.tap_errors ≠ [] then
        [prefixed "Protocol error(s) were found:" e.attention] ++ t.tap_errors
      else []
    let summary :=
      natReprS t.successes.length ++ " ok  |  " ++ natReprS t.errors.length ++
        " not ok  |  " ++ natReprS t.tap_errors.length ++ " tap errors"
    let emoji_summary :=
      pyReplace (pyReplace (pyReplace summary "not ok" e.failure) "ok" e.success)
        "tap errors" e.tap_error
    let final :=
      if t.error_count = 0 then
        [prefixed ("All tests successful - " ++ emoji_summary) e.great_success]
      else
        let all_failed := t.successes = [] ∧ t.results.length = t.range.length
        let some_all := if all_failed then "All" else "Some"
        let fail_emoji :=
          if t.tap_errors ≠ [] ∨ t.successes = [] then e.catastrophe else e.disaster
        [prefixed (some_all ++ " tests failed - " ++ emoji_summary) fail_emoji]
    (t, some (block1 ++ block2 ++ block3 ++ ["", "Summary: " ++ summary] ++ final))

/-- `Tapper.exit_code()`: `none` models the `assert` failing. -/
def Tapper.exit_code (t : Tapper) : Option Int :=
  if t.error_count < 0 then none else some (min t.error_count 100)

/-! ### Basic facts about the string helpers -/

/-- Characters that are not Python whitespace. -/
def NoWs (l : List Char) : Prop := ∀ c ∈ l, pyIsSpace c = false

theorem data_append (a b : String) : (a ++ b).data = a.data ++ b.data := by
  cases a; cases b; rfl

theorem splitWsAux_nil (acc : List Char) :
    splitWsAux [] acc = if acc = [] then [] else [acc.reverse] := rfl

theorem splitWsAux_token (tk : List Char) (h : NoWs tk) (rest acc : List Char) :
    splitWsAux (tk ++ rest) acc = splitWsAux rest (tk.reverse ++ acc) := by
  induction tk generalizing acc with
  | nil => simp
  | cons c cs ih =>
    have hc : pyIsSpace c = false := h c (by simp)
    have hcs : NoWs cs := fun x hx => h x (by simp [hx])
    simp [splitWsAux, hc, ih hcs]

theorem splitWsAux_space (c : Char) (hc : pyIsSpace c = true) (r acc : List Char) :
    splitWsAux (c :: r) acc =
      if acc = [] then splitWsAux r [] else acc.reverse :: splitWsAux r [] := by
  simp [splitWsAux, hc]

/-- A single non-empty whitespace-free token splits to itself. -/
theorem splitWsAux_single (tk : List Char) (h : NoWs tk) (hne : tk ≠ []) :
    splitWsAux tk [] = [tk] := by
  have := splitWsAux_token tk h [] []
  simp only [List.append_nil] at this
  rw [this, splitWsAux_nil]
  simp [hne]

/-- A token, a space, then a remainder. -/
theorem splitWsAux_token_space (tk : List Char) (h : NoWs tk) (hne : tk ≠ [])
    (c : Char) (hc : pyIsSpace c = true) (r : List Char) :
    splitWsAux (tk ++ c :: r) [] = tk :: splitWsAux r [] := by
  rw [splitWsAux_token tk h (c :: r) [], splitWsAux_space c hc]
  simp [hne]

theorem dropWhile_append' (p : Char → Bool) (a b : List Char) :
    (a ++ b).dropWhile p =
      if a.dropWhile p = [] then b.dropWhile p else a.dropWhile p ++ b := by
  induction a with
  | nil => simp
  | cons c cs ih =>
    by_cases hc : p c
    · simp [List.dropWhile_cons, hc, ih]
    · simp [List.dropWhile_cons, hc]

theorem rstripL_append (a b : List Char) :
    rstripL (a ++ b) = if rstripL b = [] then rstripL a else a ++ rstripL b := by
  unfold rstripL
  rw [List.reverse_append, dropWhile_append']
  by_cases h : b.reverse.dropWhile pyIsSpace = []
  · simp [h]
  · rw [if_neg h, if_neg (by simpa using h), List.reverse_append]
    simp

theorem lstripL_cons_of_nows (c : Char) (hc : pyIsSpace c = false) (l : List Char) :
    lstripL (c :: l) = c :: l := by
  simp [lstripL, List.dropWhile_cons, hc]

theorem dropWhile_eq_self_of_nows (l : List Char) (h : NoWs l) :
    l.dropWhile pyIsSpace = l := by
  cases l with
  | nil => rfl
  | cons c cs => simp [List.dropWhile_cons, h c (by simp)]

theorem rstripL_eq_self (l : List Char) (h : NoWs l) : rstripL l = l := by
  unfold rstripL
  rw [dropWhile_eq_self_of_nows _ (fun c hc => h c (List.mem_reverse.1 hc)),
    List.reverse_reverse]

theorem lstripL_eq_self (l : List Char) (h : NoWs l) : lstripL l = l :=
  dropWhile_eq_self_of_nows l h

theorem pyStripL_eq_self (l : List Char) (h : NoWs l) : pyStripL l = l := by
  unfold pyStripL
  rw [lstripL_eq_self l h, rstripL_eq_self l h]

theorem rstripL_single_space (c : Char) (hc : pyIsSpace c = true) : rstripL [c] = [] := by
  simp [rstripL, List.dropWhile, hc]

theorem rstripL_append_space (l : List Char) (c : Char) (hc : pyIsSpace c = true) :
    rstripL (l ++ [c]) = rstripL l := by
  rw [rstripL_append, rstripL_single_space c hc]
  simp

/-- `rstripL` of a cons of a whitespace char: empty, or keeps the head. -/
theorem rstripL_cons_space (c : Char) (hc : pyIsSpace c = true) (l : List Char) :
    rstripL (c :: l) = if rstripL l = [] then [] else c :: rstripL l := by
  have := rstripL_append [c] l
  simp only [List.singleton_append] at this
  rw [this, rstripL_single_space c hc]

/-! ### Decimal printing and parsing -/

theorem natReprAux_zero (f : Nat) : natReprAux f 0 = [] := by
  cases f <;> rfl

theorem digitChar_isDigit (d : Nat) (h : d < 10) : (Nat.digitChar d).isDigit = true := by
  interval_cases d <;> rfl

theorem digitChar_val (d : Nat) (h : d < 10) : (Nat.digitChar d).toNat - 48 = d := by
  interval_cases d <;> rfl

theorem isDigit_ne (c : Char) (h : c.isDigit = true) (d : Char) (hd : d.isDigit = false) :
    c ≠ d := by
  intro he
  rw [he, hd] at h
  exact Bool.noConfusion h

theorem isDigit_nows (c : Char) (h : c.isDigit = true) : pyIsSpace c = false := by
  have l1 : c ≠ ' ' := isDigit_ne c h ' ' (by decide)
  have l2 : c ≠ '\t' := isDigit_ne c h '\t' (by decide)
  have l3 : c ≠ '\n' := isDigit_ne c h '\n' (by decide)
  have l4 : c ≠ '\r' := isDigit_ne c h '\r' (by decide)
  have l5 : c ≠ Char.ofNat 11 := isDigit_ne c h (Char.ofNat 11) (by decide)
  have l6 : c ≠ Char.ofNat 12 := isDigit_ne c h (Char.ofNat 12) (by decide)
  simp [pyIsSpace, l1, l2, l3, l4, l5, l6]

theorem digitsVal_append_digit (l : List Char) (c : Char) :
    digitsVal (l ++ [c]) = 10 * digitsVal l + (c.toNat - 48) := by
  simp [digitsVal, List.foldl_append]

theorem digitsVal_single (c : Char) : digitsVal [c] = c.toNat - 48 := by
  simp [digitsVal]

theorem natReprAux_succ (f n : Nat) :
    natReprAux (f + 1) (n + 1) =
      natReprAux f ((n + 1) / 10) ++ [Nat.digitChar ((n + 1) % 10)] := rfl

theorem natReprAux_spec (f : Nat) : ∀ n, 0 < n → n ≤ f →
    natReprAux f n ≠ [] ∧ (∀ c ∈ natReprAux f n, c.isDigit = true) ∧
      digitsVal (natReprAux f n) = n := by
  induction f with
  | zero => intro n h1 h2; omega
  | succ f ih =>
    intro n h1 _
    obtain ⟨m, rfl⟩ : ∃ m, n = m + 1 := ⟨n - 1, by omega⟩
    rw [natReprAux_succ]
    have hmod : (m + 1) % 10 < 10 := Nat.mod_lt _ (by omega)
    by_cases hq : (m + 1) / 10 = 0
    · rw [hq, natReprAux_zero]
      refine ⟨by simp, ?_, ?_⟩
      · intro c hc
        simp only [List.nil_append, List.mem_singleton] at hc
        rw [hc]; exact digitChar_isDigit _ hmod
      · simp only [List.nil_append]
        rw [digitsVal_single, digitChar_val _ hmod]
        omega
    · have hle : (m + 1) / 10 ≤ f := by
        have := Nat.div_lt_self (show 0 < m + 1 by omega) (show 1 < 10 by omega)
        omega
      obtain ⟨hne, hdig, hval⟩ := ih ((m + 1) / 10) (Nat.pos_of_ne_zero hq) hle
      refine ⟨by simp, ?_, ?_⟩
      · intro c hc
        rcases List.mem_append.1 hc with h | h
        · exact hdig c h
        · simp only [List.mem_singleton] at h
          rw [h]; exact digitChar_isDigit _ hmod
      · rw [digitsVal_append_digit, hval, digitChar_val _ hmod]
        omega

theorem natRepr_ne_nil (n : Nat) : natRepr n ≠ [] := by
  unfold natRepr
  by_cases h : n = 0
  · simp [h]
  · simp only [h, if_false]
    exact (natReprAux_spec n n (Nat.pos_of_ne_zero h) le_rfl).1

theorem natRepr_digits (n : Nat) : ∀ c ∈ natRepr n, c.isDigit = true := by
  unfold natRepr
  by_cases h : n = 0
  · simp [h]
  · simp only [h, if_false]
    exact (natReprAux_spec n n (Nat.pos_of_ne_zero h) le_rfl).2.1

theorem natRepr_nows (n : Nat) : NoWs (natRepr n) :=
  fun c hc => isDigit_nows c (natRepr_digits n c hc)

theorem digitsVal_natRepr (n : Nat) : digitsVal (natRepr n) = n := by
  unfold natRepr
  by_cases h : n = 0
  · simp [h]; rfl
  · simp only [h, if_false]
    exact (natReprAux_spec n n (Nat.pos_of_ne_zero h) le_rfl).2.2

theorem parseNatDigits_natRepr (n : Nat) : parseNatDigits (natRepr n) = some n := by
  unfold parseNatDigits
  rw [if_neg (by simp [List.isEmpty_iff, natRepr_ne_nil n]),
    if_pos (List.all_eq_true.2 (natRepr_digits n)), digitsVal_natRepr]

theorem pyInt_natReprS (n : Nat) : pyInt (natReprS n) = some (n : Int) := by
  show pyIntL (natRepr n) = some (n : Int)
  unfold pyIntL
  simp only [pyStripL_eq_self _ (natRepr_nows n)]
  obtain ⟨c, cs, hcons⟩ := List.exists_cons_of_ne_nil (natRepr_ne_nil n)
  have hd : c.isDigit = true := natRepr_digits n c (by rw [hcons]; simp)
  have hhead : (natRepr n).headD ' ' = c := by rw [hcons]; rfl
  rw [if_neg (by simp [natRepr_ne_nil n]), hhead,
    if_neg (isDigit_ne c hd '+' (by decide)), if_neg (isDigit_ne c hd '-' (by decide)),
    parseNatDigits_natRepr]
  rfl

/-! ### `replace`, substring and `intRange` facts -/

theorem replaceFuelL_no_occ (o : Char) (tl new : List Char) :
    ∀ (f : Nat) (l : List Char), (∀ c ∈ l, c ≠ o) →
      replaceFuelL (o :: tl) new f l = l := by
  intro f
  induction f with
  | zero => intro l _; cases l <;> rfl
  | succ f ih =>
    intro l h
    cases l with
    | nil => rfl
    | cons c cs =>
      have hco : (o == c) = false := by
        simp [h c (by simp)]
        exact fun he => (h c (by simp)) he.symm
      show (if (o :: tl).isPrefixOf (c :: cs) then _ else _) = _
      rw [if_neg (by simp [List.isPrefixOf]; intro he; exact absurd he.symm (h c (by simp)))]
      rw [ih cs (fun x hx => h x (by simp [hx]))]

theorem containsSubL_no_occ (o : Char) (tl : List Char) :
    ∀ hay : List Char, (∀ c ∈ hay, c ≠ o) → containsSubL (o :: tl) hay = false := by
  intro hay
  induction hay with
  | nil => intro _; rfl
  | cons c cs ih =>
    intro h
    show ((o :: tl).isPrefixOf (c :: cs) || containsSubL (o :: tl) cs) = false
    rw [ih (fun x hx => h x (by simp [hx]))]
    simp [List.isPrefixOf]
    intro he
    exact absurd he.symm (h c (by simp))

theorem intRange_length (a b : Int) : (intRange a b).length = (b + 1 - a).toNat := by
  unfold intRange
  rw [List.length_map, List.length_range]

theorem intRange_nodup (a b : Int) : (intRange a b).Nodup := by
  unfold intRange
  refine List.Nodup.map ?_ (List.nodup_range _)
  intro x y h
  have h' : a + (x : Int) = a + (y : Int) := h
  omega

theorem intRange_mem (a b x : Int) :
    x ∈ intRange a b ↔ a ≤ x ∧ x ≤ b := by
  unfold intRange
  simp only [List.mem_map, List.mem_range]
  constructor
  · rintro ⟨i, hi, rfl⟩
    have hi' : (i : Int) < b + 1 - a := Int.lt_toNat.1 hi
    omega
  · rintro ⟨h1, h2⟩
    refine ⟨(x - a).toNat, ?_, ?_⟩
    · rw [Int.lt_toNat, Int.toNat_of_nonneg (by omega)]
      omega
    · rw [Int.toNat_of_nonneg (by omega)]
      omega

/-! ### `addRange` and `found_number` facts -/

theorem addRange_fresh (w : String) : ∀ (l : List Int) (t : Tapper),
    (∀ x ∈ l, x ∉ t.range) → l.Nodup →
    t.addRange w l = { t with range := t.range ++ l } := by
  intro l
  induction l with
  | nil => intro t _ _; simp [Tapper.addRange]
  | cons x xs ih =>
    intro t hfresh hnd
    have hx : x ∉ t.range := hfresh x (by simp)
    rw [Tapper.addRange, if_neg hx]
    rw [ih { t with range := t.range ++ [x] } ?_ (List.Nodup.of_cons hnd)]
    · simp
    · intro y hy
      simp only [List.mem_append, List.mem_singleton]
      push_neg
      refine ⟨fun hmem => hfresh y (by simp [hy]) hmem, ?_⟩
      intro he
      rw [he] at hy
      exact (List.nodup_cons.1 hnd).1 hy

theorem addRange_untouched (w : String) : ∀ (l : List Int) (t : Tapper),
    (t.addRange w l).errors = t.errors ∧ (t.addRange w l).successes = t.successes ∧
    (t.addRange w l).results = t.results ∧ (t.addRange w l).numbers = t.numbers ∧
    (t.addRange w l).error_count = t.error_count ∧ (t.addRange w l).emoji = t.emoji ∧
    (t.addRange w l).ascii = t.ascii := by
  intro l
  induction l with
  | nil => intro t; simp [Tapper.addRange]
  | cons x xs ih =>
    intro t
    rw [Tapper.addRange]
    by_cases hx : x ∈ t.range
    · rw [if_pos hx]; exact ih _
    · rw [if_neg hx]; exact ih _

theorem addRange_nodup (w : String) : ∀ (l : List Int) (t : Tapper),
    t.range.Nodup → (t.addRange w l).range.Nodup := by
  intro l
  induction l with
  | nil => intro t h; simpa [Tapper.addRange] using h
  | cons x xs ih =>
    intro t h
    rw [Tapper.addRange]
    by_cases hx : x ∈ t.range
    · rw [if_pos hx]; exact ih _ h
    · rw [if_neg hx]
      refine ih _ ?_
      simp only [List.nodup_append, List.nodup_cons]
      exact ⟨h, by simp, by simpa [List.disjoint_singleton] using hx⟩

theorem addRange_congr (w : String) : ∀ (l : List Int) (ta tb : Tapper),
    ta.range = tb.range → ta.tap_errors = tb.tap_errors →
    (ta.addRange w l).range = (tb.addRange w l).range ∧
    (ta.addRange w l).tap_errors = (tb.addRange w l).tap_errors := by
  intro l
  induction l with
  | nil => intro ta tb hr he; simp [Tapper.addRange, hr, he]
  | cons x xs ih =>
    intro ta tb hr he
    rw [Tapper.addRange, Tapper.addRange, hr]
    by_cases hx : x ∈ tb.range
    · rw [if_pos hx, if_pos hx]
      exact ih _ _ (by simp [hr]) (by simp [he])
    · rw [if_neg hx, if_neg hx]
      exact ih _ _ (by simp [hr]) (by simp [he])

/-- The effect of `found_number` on the only fields it touches
(`numbers`, `tap_errors`), as a pure function. -/
def fnSpec (numbers : List PyNum) (rng : List Int) (taps : List String) (tok : String) :
    List PyNum × List String :=
  let p : PyNum × List String :=
    match pyInt tok with
    | some n => (PyNum.int n, taps)
    | none => (PyNum.str tok, taps ++ ["Invalid test number: '" ++ tok ++ "'"])
  let num := p.1
  let taps := p.2
  let taps :=
    if rng.length = 0 then
      taps ++ ["No test range defined before result no. " ++ pyNumStr num]
    else if ¬ numInIntList num rng then
      taps ++ ["Test result " ++ pyNumStr num ++ " doesn't fit into any previous range"]
    else taps
  if num ∈ numbers then
    (numbers, taps ++ ["Multiple results for test no. " ++ pyNumStr num])
  else
    (numbers ++ [num], taps)

theorem found_number_eq (t : Tapper) (tok : String) :
    t.found_number tok =
      { t with numbers := (fnSpec t.numbers t.range t.tap_errors tok).1,
               tap_errors := (fnSpec t.numbers t.range t.tap_errors tok).2 } := by
  unfold Tapper.found_number fnSpec
  cases h : pyInt tok <;> simp only [h] <;> split_ifs <;> rfl

theorem found_number_untouched (t : Tapper) (tok : String) :
    (t.found_number tok).errors = t.errors ∧ (t.found_number tok).successes = t.successes ∧
    (t.found_number tok).results = t.results ∧ (t.found_number tok).range = t.range ∧
    (t.found_number tok).error_count = t.error_count ∧
    (t.found_number tok).emoji = t.emoji ∧ (t.found_number tok).ascii = t.ascii := by
  rw [found_number_eq]
  exact ⟨rfl, rfl, rfl, rfl, rfl, rfl, rfl⟩

theorem fnSpec_numbers_shape (numbers : List PyNum) (rng : List Int) (taps : List String)
    (tok : String) :
    (fnSpec numbers rng taps tok).1 = numbers ∨
      ∃ num, num ∉ numbers ∧ (fnSpec numbers rng taps tok).1 = numbers ++ [num] := by
  unfold fnSpec
  cases h : pyInt tok <;> simp only [h] <;> split_ifs with h1 h2 <;>
    first
      | exact Or.inl rfl
      | exact Or.inr ⟨_, by assumption, rfl⟩

theorem found_number_nodup (t : Tapper) (tok : String) (h : t.numbers.Nodup) :
    (t.found_number tok).numbers.Nodup := by
  rw [found_number_eq]
  show (fnSpec t.numbers t.range t.tap_errors tok).1.Nodup
  rcases fnSpec_numbers_shape t.numbers t.range t.tap_errors tok with hs | ⟨num, hmem, hs⟩
  · rw [hs]; exact h
  · rw [hs]
    simp only [List.nodup_append, List.nodup_cons]
    exact ⟨h, by simp, by simpa [List.disjoint_singleton] using hmem⟩

/-- The effect of the `for num in new_range` loop of `maybe_range` on
(`range`, `tap_errors`), as a pure function. -/
def arSpec (w : String) : List Int → List Int × List String → List Int × List String
  | [], p => p
  | num :: rest, (rng, taps) =>
    if num ∈ rng then
      arSpec w rest
        (rng, taps ++ ["Overlapping range '" ++ w ++ "' at '" ++ toString num ++ "'"])
    else
      arSpec w rest (rng ++ [num], taps)

theorem addRange_eq (w : String) : ∀ (l : List Int) (t : Tapper),
    t.addRange w l =
      { t with range := (arSpec w l (t.range, t.tap_errors)).1,
               tap_errors := (arSpec w l (t.range, t.tap_errors)).2 } := by
  intro l
  induction l with
  | nil => intro t; rfl
  | cons x xs ih =>
    intro t
    rw [Tapper.addRange]
    show _ = { t with range := (arSpec w (x :: xs) (t.range, t.tap_errors)).1,
                      tap_errors := (arSpec w (x :: xs) (t.range, t.tap_errors)).2 }
    by_cases hx : x ∈ t.range
    · rw [if_pos hx, ih]
      show _ = { t with range := (if x ∈ t.range then _ else _ : List Int × List String).1,
                        tap_errors := (if x ∈ t.range then _ else _ : List Int × List String).2 }
      rw [if_pos hx]
    · rw [if_neg hx, ih]
      show _ = { t with range := (if x ∈ t.range then _ else _ : List Int × List String).1,
                        tap_errors := (if x ∈ t.range then _ else _ : List Int × List String).2 }
      rw [if_neg hx]

/-- The effect of `maybe_range` on (`range`, `tap_errors`) plus its output,
as a pure function; `none` models the uncaught `ValueError`. -/
def mrSpec (word : String) (rng : List Int) (taps : List String) :
    List String × Option (List Int × List String) :=
  let processed := pyReplace word ".." " "
  let out := [processed ++ "\n"]
  if pySubstr "." processed then (out, some (rng, taps))
  else
    let parts := pySplit processed
    if parts.length ≠ 2 then (out, some (rng, taps))
    else
      match pyInt (parts.getD 0 ""), pyInt (parts.getD 1 "") with
      | some a, some b =>
        if a > b then (out, some (rng, taps ++ ["Invalid range: " ++ word]))
        else (out, some (arSpec word (intRange a b) (rng, taps)))
      | _, _ => (out, none)

theorem maybe_range_eq (t : Tapper) (word : String) :
    t.maybe_range word =
      ((mrSpec word t.range t.tap_errors).1,
        (mrSpec word t.range t.tap_errors).2.map fun p =>
          { t with range := p.1, tap_errors := p.2 }) := by
  unfold Tapper.maybe_range mrSpec
  dsimp only
  split_ifs with h1 h2
  · rfl
  · rfl
  · cases ha : pyInt ((pySplit (pyReplace word ".." " ")).getD 0 "") with
    | none => rfl
    | some a =>
      cases hb : pyInt ((pySplit (pyReplace word ".." " ")).getD 1 "") with
      | none => rfl
      | some b =>
        by_cases hab : a > b
        · simp only [if_pos hab]
          rfl
        · simp only [if_neg hab, addRange_eq]
          rfl

/-- The common tail of `process_line`: the range check plus the echo. -/
def plTail (t : Tapper) (line : String) : List String × Option Tapper :=
  let seq := pySplit (pyStrip line)
  if seq.length > 0 ∧ pySubstr ".." (seq.getD 0 "") then
    match t.maybe_range (seq.getD 0 "") with
    | (out1, none) => (out1, none)
    | (out1, some t2) => (out1 ++ [line], some t2)
  else ([line], some t)

theorem process_line_ok (t : Tapper) (line numTok : String)
    (hok : pyStartsWith (pyStrip line) "ok" = true)
    (htk : (pySplit (pyStrip line)).get? 1 = some numTok) :
    t.process_line line =
      plTail (Tapper.found_number
        { t with successes := t.successes ++ [prefixed (pyStrip line) t.emoji.success],
                 results := t.results ++ [prefixed (pyStrip line) t.emoji.success] }
        numTok) line := by
  unfold Tapper.process_line plTail
  dsimp only
  rw [if_pos hok, htk]

theorem process_line_ok_crash (t : Tapper) (line : String)
    (hok : pyStartsWith (pyStrip line) "ok" = true)
    (htk : (pySplit (pyStrip line)).get? 1 = none) :
    t.process_line line = ([], none) := by
  unfold Tapper.process_line
  dsimp only
  rw [if_pos hok, htk]

theorem process_line_notok (t : Tapper) (line numTok : String)
    (hok : pyStartsWith (pyStrip line) "ok" = false)
    (hnot : pyStartsWith (pyStrip line) "not ok" = true)
    (htk : (pySplit (pyStrip line)).get? 2 = some numTok) :
    t.process_line line =
      plTail (Tapper.found_number
        { t with errors := t.errors ++ [prefixed (pyStrip line) t.emoji.failure],
                 results := t.results ++ [prefixed (pyStrip line) t.emoji.failure] }
        numTok) line := by
  unfold Tapper.process_line plTail
  dsimp only
  rw [hok, if_pos hnot, htk]
  simp only [Bool.false_eq_true, if_false]

theorem process_line_notok_crash (t : Tapper) (line : String)
    (hok : pyStartsWith (pyStrip line) "ok" = false)
    (hnot : pyStartsWith (pyStrip line) "not ok" = true)
    (htk : (pySplit (pyStrip line)).get? 2 = none) :
    t.process_line line = ([], none) := by
  unfold Tapper.process_line
  dsimp only
  rw [hok, if_pos hnot, htk]
  simp only [Bool.false_eq_true, if_false]

theorem process_line_other (t : Tapper) (line : String)
    (hok : pyStartsWith (pyStrip line) "ok" = false)
    (hnot : pyStartsWith (pyStrip line) "not ok" = false) :
    t.process_line line = plTail t line := by
  unfold Tapper.process_line plTail
  dsimp only
  rw [hok, hnot]
  simp only [Bool.false_eq_true, if_false]

theorem plTail_no_range (t : Tapper) (line : String)
    (h : ¬((pySplit (pyStrip line)).length > 0 ∧
        pySubstr ".." ((pySplit (pyStrip line)).getD 0 "") = true)) :
    plTail t line = ([line], some t) := by
  unfold plTail
  dsimp only
  rw [if_neg h]

theorem plTail_range (t : Tapper) (line : String)
    (h : (pySplit (pyStrip line)).length > 0 ∧
        pySubstr ".." ((pySplit (pyStrip line)).getD 0 "") = true) :
    plTail t line =
      match t.maybe_range ((pySplit (pyStrip line)).getD 0 "") with
      | (out1, none) => (out1, none)
      | (out1, some t2) => (out1 ++ [line], some t2) := by
  unfold plTail
  dsimp only
  rw [if_pos h]

/-! ### Constructed input lines -/

theorem string_eq_of_data (a b : String) (h : a.data = b.data) : a = b := by
  cases a; cases b; exact congrArg String.mk h

theorem natReprS_data (n : Nat) : (natReprS n).data = natRepr n := rfl

theorem ok_pre_data : ("ok " : String).data = 'o' :: ['k', ' '] := rfl

theorem notok_pre_data :
    ("not ok " : String).data = 'n' :: ['o', 't', ' ', 'o', 'k', ' '] := rfl

theorem sp_data : (" " : String).data = [' '] := rfl

theorem nl_data : ("\n" : String).data = ['\n'] := rfl

/-- A result line of the stream: `"ok <idx> <desc>\n"` or
`"not ok <idx> <desc>\n"`. -/
structure RSpec where
  fail : Bool
  idx : Nat
  desc : String

/-- Render a result line. -/
def mkResultLine (sp : RSpec) : String :=
  (if sp.fail then "not ok " else "ok ") ++ natReprS sp.idx ++ " " ++ sp.desc ++ "\n"

/-- The range-declaration line `"1..N\n"`. -/
def rangeLine (n : Nat) : String := "1.." ++ natReprS n ++ "\n"

theorem space_is_space : pyIsSpace ' ' = true := by decide

theorem newline_is_space : pyIsSpace '\n' = true := by decide

/-- Head character of the marker of a result line. -/
def lineHead (sp : RSpec) : Char := if sp.fail then 'n' else 'o'

/-- Remaining characters of the marker of a result line. -/
def lineRest (sp : RSpec) : List Char :=
  if sp.fail then ['o', 't', ' ', 'o', 'k', ' '] else ['k', ' ']

theorem mkResultLine_data (sp : RSpec) :
    (mkResultLine sp).data =
      ((lineHead sp :: lineRest sp) ++ natRepr sp.idx) ++
        ((' ' :: sp.desc.data) ++ ['\n']) := by
  unfold mkResultLine lineHead lineRest
  rw [data_append, data_append, data_append, data_append, natReprS_data, sp_data, nl_data]
  cases hf : sp.fail <;> simp [List.append_assoc]

theorem lineHead_nows (sp : RSpec) : pyIsSpace (lineHead sp) = false := by
  unfold lineHead
  cases sp.fail <;> simp <;> decide

/-- Stripping a line `<marker><digits> <desc>\n` keeps marker and digits and
right-strips the rest. -/
theorem strip_token_line (c : Char) (hc : pyIsSpace c = false) (pre rep d : List Char)
    (hrep : NoWs rep) (hrep_ne : rep ≠ []) :
    pyStripL (((c :: pre) ++ rep) ++ ((' ' :: d) ++ ['\n'])) =
      ((c :: pre) ++ rep) ++ rstripL (' ' :: d) := by
  unfold pyStripL
  have hshape : ((c :: pre) ++ rep) ++ ((' ' :: d) ++ ['\n']) =
      c :: (pre ++ rep ++ ((' ' :: d) ++ ['\n'])) := by simp
  rw [hshape, lstripL_cons_of_nows c hc, ← hshape,
    rstripL_append ((c :: pre) ++ rep) ((' ' :: d) ++ ['\n']),
    rstripL_append_space (' ' :: d) '\n' newline_is_space]
  by_cases hr : rstripL (' ' :: d) = []
  · rw [if_pos hr, hr, List.append_nil,
      rstripL_append (c :: pre) rep, if_neg (by rw [rstripL_eq_self rep hrep]; exact hrep_ne),
      rstripL_eq_self rep hrep]
  · rw [if_neg hr]

theorem strip_mkResultLine (sp : RSpec) :
    (pyStrip (mkResultLine sp)).data =
      ((lineHead sp :: lineRest sp) ++ natRepr sp.idx) ++ rstripL (' ' :: sp.desc.data) := by
  show pyStripL (mkResultLine sp).data = _
  rw [mkResultLine_data]
  exact strip_token_line (lineHead sp) (lineHead_nows sp) (lineRest sp) (natRepr sp.idx)
    sp.desc.data (natRepr_nows sp.idx) (natRepr_ne_nil sp.idx)

theorem splitWsAux_rep_tail (rep d : List Char) (hrep : NoWs rep) (hrep_ne : rep ≠ []) :
    ∃ rest : List (List Char),
      splitWsAux (rep ++ rstripL (' ' :: d)) [] = rep :: rest := by
  rw [rstripL_cons_space ' ' space_is_space d]
  by_cases hr : rstripL d = []
  · rw [if_pos hr, List.append_nil, splitWsAux_single rep hrep hrep_ne]
    exact ⟨[], rfl⟩
  · rw [if_neg hr]
    exact ⟨splitWsAux (rstripL d) [],
      splitWsAux_token_space rep hrep hrep_ne ' ' space_is_space _⟩

theorem tokens_mkResultLine (sp : RSpec) :
    ∃ rest : List String,
      pySplit (pyStrip (mkResultLine sp)) =
        (if sp.fail then ["not", "ok"] else ["ok"]) ++ natReprS sp.idx :: rest := by
  unfold pySplit
  rw [strip_mkResultLine]
  obtain ⟨rest, hrest⟩ :=
    splitWsAux_rep_tail (natRepr sp.idx) sp.desc.data (natRepr_nows _) (natRepr_ne_nil _)
  refine ⟨rest.map fun l => ⟨l⟩, ?_⟩
  cases hf : sp.fail
  · have hsh : ((lineHead sp :: lineRest sp) ++ natRepr sp.idx) ++
        rstripL (' ' :: sp.desc.data) =
        ['o', 'k'] ++ (' ' :: (natRepr sp.idx ++ rstripL (' ' :: sp.desc.data))) := by
      unfold lineHead lineRest
      rw [hf]
      simp
    rw [hsh, splitWsAux_token_space ['o', 'k'] (by unfold NoWs; decide) (by simp) ' '
      space_is_space, hrest]
    simp [natReprS]
  · have hsh : ((lineHead sp :: lineRest sp) ++ natRepr sp.idx) ++
        rstripL (' ' :: sp.desc.data) =
        ['n', 'o', 't'] ++ (' ' ::
          (['o', 'k'] ++ (' ' :: (natRepr sp.idx ++ rstripL (' ' :: sp.desc.data))))) := by
      unfold lineHead lineRest
      rw [hf]
      simp
    rw [hsh, splitWsAux_token_space ['n', 'o', 't'] (by unfold NoWs; decide) (by simp) ' '
      space_is_space,
      splitWsAux_token_space ['o', 'k'] (by unfold NoWs; decide) (by simp) ' '
      space_is_space, hrest]
    simp [natReprS]

theorem strip_mkResultLine_ok (sp : RSpec) (hf : sp.fail = false) :
    (pyStrip (mkResultLine sp)).data =
      'o' :: 'k' :: ' ' :: (natRepr sp.idx ++ rstripL (' ' :: sp.desc.data)) := by
  rw [strip_mkResultLine]
  unfold lineHead lineRest
  rw [hf]
  simp

theorem strip_mkResultLine_notok (sp : RSpec) (hf : sp.fail = true) :
    (pyStrip (mkResultLine sp)).data =
      'n' :: 'o' :: 't' :: ' ' :: 'o' :: 'k' :: ' ' ::
        (natRepr sp.idx ++ rstripL (' ' :: sp.desc.data)) := by
  rw [strip_mkResultLine]
  unfold lineHead lineRest
  rw [hf]
  simp

theorem startsWith_ok_of_data (s : String) (l : List Char)
    (h : s.data = 'o' :: 'k' :: l) : pyStartsWith s "ok" = true := by
  unfold pyStartsWith
  rw [h]
  show (['o', 'k'].isPrefixOf ('o' :: 'k' :: l)) = true
  simp [List.isPrefixOf]

theorem startsWith_mkResultLine_notok (sp : RSpec) (hf : sp.fail = true) :
    pyStartsWith (pyStrip (mkResultLine sp)) "ok" = false ∧
      pyStartsWith (pyStrip (mkResultLine sp)) "not ok" = true := by
  unfold pyStartsWith
  rw [strip_mkResultLine_notok sp hf]
  exact ⟨rfl, rfl⟩

theorem process_line_mkResultLine (t : Tapper) (sp : RSpec) :
    t.process_line (mkResultLine sp) =
      ([mkResultLine sp], some
        (Tapper.found_number
          (if sp.fail then
            { t with
                errors := t.errors ++ [prefixed (pyStrip (mkResultLine sp)) t.emoji.failure],
                results := t.results ++ [prefixed (pyStrip (mkResultLine sp)) t.emoji.failure] }
          else
            { t with
                successes :=
                  t.successes ++ [prefixed (pyStrip (mkResultLine sp)) t.emoji.success],
                results :=
                  t.results ++ [prefixed (pyStrip (mkResultLine sp)) t.emoji.success] })
          (natReprS sp.idx))) := by
  obtain ⟨rest, hrest⟩ := tokens_mkResultLine sp
  have hg : (pySplit (pyStrip (mkResultLine sp))).getD 0 "" =
      (if sp.fail then "not" else "ok") := by
    rw [hrest]
    cases hf : sp.fail <;> simp
  have hnotail : ∀ t2 : Tapper, plTail t2 (mkResultLine sp) = ([mkResultLine sp], some t2) := by
    intro t2
    apply plTail_no_range
    intro hcon
    rw [hg] at hcon
    have hsub := hcon.2
    revert hsub
    cases hf : sp.fail <;> simp <;> decide
  cases hf : sp.fail
  · have hok : pyStartsWith (pyStrip (mkResultLine sp)) "ok" = true :=
      startsWith_ok_of_data _ _ (strip_mkResultLine_ok sp hf)
    have htk : (pySplit (pyStrip (mkResultLine sp))).get? 1 = some (natReprS sp.idx) := by
      rw [hrest, hf]
      simp
    rw [process_line_ok t _ _ hok htk, hnotail]
    simp [hf]
  · obtain ⟨hok, hnot⟩ := startsWith_mkResultLine_notok sp hf
    have htk : (pySplit (pyStrip (mkResultLine sp))).get? 2 = some (natReprS sp.idx) := by
      rw [hrest, hf]
      simp
    rw [process_line_notok t _ _ hok hnot htk, hnotail]
    simp [hf]

theorem replaceFuelL_cons (old new : List Char) (f : Nat) (c : Char) (cs : List Char) :
    replaceFuelL old new (f + 1) (c :: cs) =
      if old.isPrefixOf (c :: cs) then
        new ++ replaceFuelL old new f (cs.drop (old.length - 1))
      else
        c :: replaceFuelL old new f cs := rfl

theorem rangeLine_data (n : Nat) :
    (rangeLine n).data = '1' :: '.' :: '.' :: (natRepr n ++ ['\n']) := by
  unfold rangeLine
  rw [data_append, data_append, natReprS_data, nl_data]
  rfl

theorem rangeTok_nows (n : Nat) : NoWs ('1' :: '.' :: '.' :: natRepr n) := by
  intro c hc
  simp only [List.mem_cons] at hc
  rcases hc with rfl | rfl | rfl | hc
  · decide
  · decide
  · decide
  · exact natRepr_nows n c hc

theorem strip_rangeLine (n : Nat) :
    (pyStrip (rangeLine n)).data = '1' :: '.' :: '.' :: natRepr n := by
  show pyStripL (rangeLine n).data = _
  rw [rangeLine_data]
  unfold pyStripL
  rw [lstripL_cons_of_nows '1' (by decide)]
  have hsh : '1' :: '.' :: '.' :: (natRepr n ++ ['\n']) =
      ('1' :: '.' :: '.' :: natRepr n) ++ ['\n'] := by simp
  rw [hsh, rstripL_append_space _ '\n' newline_is_space,
    rstripL_eq_self _ (rangeTok_nows n)]

theorem tokens_rangeLine (n : Nat) :
    pySplit (pyStrip (rangeLine n)) = [⟨'1' :: '.' :: '.' :: natRepr n⟩] := by
  unfold pySplit
  rw [strip_rangeLine, splitWsAux_single _ (rangeTok_nows n) (by simp)]
  rfl

theorem natRepr_no_dot (n : Nat) : ∀ c ∈ natRepr n, c ≠ '.' :=
  fun c hc => isDigit_ne c (natRepr_digits n c hc) '.' (by decide)

theorem replace_dots_digits (rep : List Char) (hrep : ∀ c ∈ rep, c ≠ '.') :
    pyReplaceL ('1' :: '.' :: '.' :: rep) ['.', '.'] [' '] = '1' :: ' ' :: rep := by
  unfold pyReplaceL
  rw [if_neg (by simp)]
  have hlen : ('1' :: '.' :: '.' :: rep).length = (rep.length + 2) + 1 := by simp
  rw [hlen, replaceFuelL_cons, if_neg (by simp [List.isPrefixOf])]
  have h2 : rep.length + 2 = (rep.length + 1) + 1 := rfl
  rw [h2, replaceFuelL_cons, if_pos (by simp [List.isPrefixOf])]
  simp only [List.length_cons, List.singleton_append, List.cons.injEq, true_and]
  have hdrop : List.drop (([] : List Char).length + 1 + 1 - 1) ('.' :: rep) = rep := by simp
  rw [hdrop, replaceFuelL_no_occ '.' ['.'] [' '] (rep.length + 1) rep hrep]

theorem substr_dot_processed (n : Nat) :
    pySubstr "." ⟨'1' :: ' ' :: natRepr n⟩ = false := by
  show containsSubL ['.'] ('1' :: ' ' :: natRepr n) = false
  apply containsSubL_no_occ
  intro c hc
  simp only [List.mem_cons] at hc
  rcases hc with rfl | rfl | hc
  · decide
  · decide
  · exact natRepr_no_dot n c hc

theorem tokens_processed (n : Nat) :
    pySplit ⟨'1' :: ' ' :: natRepr n⟩ = ["1", natReprS n] := by
  unfold pySplit
  show (splitWsAux (['1'] ++ ' ' :: natRepr n) []).map _ = _
  rw [splitWsAux_token_space ['1'] (by unfold NoWs; decide) (by simp) ' ' space_is_space,
    splitWsAux_single _ (natRepr_nows n) (natRepr_ne_nil n)]
  rfl

theorem substr_dots_rangeTok (n : Nat) :
    pySubstr ".." ⟨'1' :: '.' :: '.' :: natRepr n⟩ = true := by
  show containsSubL ['.', '.'] ('1' :: '.' :: '.' :: natRepr n) = true
  show (['.', '.'].isPrefixOf ('1' :: '.' :: '.' :: natRepr n) ||
    containsSubL ['.', '.'] ('.' :: '.' :: natRepr n)) = true
  have h2 : containsSubL ['.', '.'] ('.' :: '.' :: natRepr n) = true := by
    show (['.', '.'].isPrefixOf ('.' :: '.' :: natRepr n) ||
      containsSubL ['.', '.'] ('.' :: natRepr n)) = true
    have : ['.', '.'].isPrefixOf ('.' :: '.' :: natRepr n) = true := by
      simp [List.isPrefixOf]
    rw [this, Bool.true_or]
  rw [h2, Bool.or_true]

theorem maybe_range_rangeLine (t : Tapper) (n : Nat) (hn : 1 ≤ n) (hr0 : t.range = []) :
    t.maybe_range ⟨'1' :: '.' :: '.' :: natRepr n⟩ =
      ([⟨'1' :: ' ' :: natRepr n⟩ ++ "\n"], some { t with range := intRange 1 (n : Int) }) := by
  unfold Tapper.maybe_range
  dsimp only
  have hproc : pyReplace ⟨'1' :: '.' :: '.' :: natRepr n⟩ ".." " " = ⟨'1' :: ' ' :: natRepr n⟩ := by
    show (⟨pyReplaceL ('1' :: '.' :: '.' :: natRepr n) ['.', '.'] [' ']⟩ : String) = _
    rw [replace_dots_digits (natRepr n) (natRepr_no_dot n)]
  rw [hproc, substr_dot_processed n]
  simp only [Bool.false_eq_true, if_false, tokens_processed n]
  rw [if_neg (by simp)]
  have h0 : (["1", natReprS n].getD 0 "") = "1" := rfl
  have h1 : (["1", natReprS n].getD 1 "") = natReprS n := rfl
  rw [h0, h1]
  have hint1 : pyInt "1" = some 1 := by decide
  rw [hint1, pyInt_natReprS n]
  dsimp only
  rw [if_neg (by omega)]
  rw [addRange_fresh _ _ _ (by rw [hr0]; simp) (intRange_nodup 1 (n : Int)), hr0]
  rfl

theorem process_line_rangeLine (t : Tapper) (n : Nat) (hn : 1 ≤ n) (hr0 : t.range = []) :
    t.process_line (rangeLine n) =
      ([⟨'1' :: ' ' :: natRepr n⟩ ++ "\n", rangeLine n],
        some { t with range := intRange 1 (n : Int) }) := by
  have hok : pyStartsWith (pyStrip (rangeLine n)) "ok" = false := by
    unfold pyStartsWith
    rw [strip_rangeLine]
    rfl
  have hnot : pyStartsWith (pyStrip (rangeLine n)) "not ok" = false := by
    unfold pyStartsWith
    rw [strip_rangeLine]
    rfl
  rw [process_line_other t _ hok hnot, plTail_range]
  · have hg : (pySplit (pyStrip (rangeLine n))).getD 0 "" = ⟨'1' :: '.' :: '.' :: natRepr n⟩ := by
      rw [tokens_rangeLine]
      rfl
    rw [hg, maybe_range_rangeLine t n hn hr0]
    rfl
  · constructor
    · rw [tokens_rangeLine]
      simp
    · rw [tokens_rangeLine]
      show pySubstr ".." ⟨'1' :: '.' :: '.' :: natRepr n⟩ = true
      exact substr_dots_rangeTok n

theorem numInIntList_str (s : String) (l : List Int) :
    numInIntList (PyNum.str s) l = false := rfl

theorem numInIntList_int (n : Int) (l : List Int) :
    numInIntList (PyNum.int n) l = true ↔ n ∈ l := by
  simp [numInIntList, List.contains, List.elem_iff]

theorem found_number_ok (t : Tapper) (k : Nat) (h1 : t.range ≠ [])
    (h2 : (k : Int) ∈ t.range) (h3 : PyNum.int (k : Int) ∉ t.numbers) :
    t.found_number (natReprS k) =
      { t with numbers := t.numbers ++ [PyNum.int (k : Int)] } := by
  rw [found_number_eq]
  have hspec : fnSpec t.numbers t.range t.tap_errors (natReprS k) =
      (t.numbers ++ [PyNum.int (k : Int)], t.tap_errors) := by
    unfold fnSpec
    rw [pyInt_natReprS k]
    dsimp only
    rw [if_neg (fun h => h1 (List.length_eq_zero.mp h)),
      if_neg (not_not_intro ((numInIntList_int (k : Int) t.range).2 h2)), if_neg h3]
  rw [hspec]

/-- Invariant maintained while processing the valid result lines of C1. -/
def C1Inv (N : Nat) (done : List RSpec) (t : Tapper) : Prop :=
  t.errors.length = (done.filter fun sp => sp.fail).length ∧
  t.results.length = done.length ∧
  t.numbers = done.map (fun sp => PyNum.int (sp.idx : Int)) ∧
  t.range = intRange 1 (N : Int) ∧
  t.tap_errors = []

theorem c1_step (N : Nat) (hN : 1 ≤ N) (done : List RSpec) (t : Tapper) (sp : RSpec)
    (hinv : C1Inv N done t) (hlo : 1 ≤ sp.idx) (hhi : sp.idx ≤ N)
    (hfresh : sp.idx ∉ done.map fun x => x.idx) :
    ∃ t', t.process_line (mkResultLine sp) = ([mkResultLine sp], some t') ∧
      C1Inv N (done ++ [sp]) t' := by
  obtain ⟨he, hres, hnum, hrng, htap⟩ := hinv
  rw [process_line_mkResultLine t sp]
  refine ⟨_, rfl, ?_⟩
  have hrange_ne : t.range ≠ [] := by
    rw [hrng]
    intro hemp
    have := intRange_length 1 (N : Int)
    rw [hemp] at this
    simp at this
    omega
  have hmem : ((sp.idx : Nat) : Int) ∈ t.range := by
    rw [hrng, intRange_mem]
    constructor <;> [exact_mod_cast hlo; exact_mod_cast hhi]
  have hnotmem : PyNum.int (sp.idx : Int) ∉ t.numbers := by
    rw [hnum]
    intro hmem'
    rcases List.mem_map.1 hmem' with ⟨x, hx, hxe⟩
    have : (x.idx : Int) = (sp.idx : Int) := by
      have := PyNum.int.inj hxe
      exact this
    have hxe' : x.idx = sp.idx := by exact_mod_cast this
    exact hfresh (List.mem_map.2 ⟨x, hx, hxe'⟩)
  cases hf : sp.fail
  · rw [if_neg (by simp)]
    rw [found_number_ok _ sp.idx (by simpa using hrange_ne) (by simpa using hmem)
      (by simpa using hnotmem)]
    refine ⟨?_, ?_, ?_, by simpa using hrng, by simpa using htap⟩
    · simpa [List.filter_append, hf] using he
    · simpa using hres
    · simp only []
      rw [List.map_append]
      simp [hnum]
  · rw [if_pos rfl]
    rw [found_number_ok _ sp.idx (by simpa using hrange_ne) (by simpa using hmem)
      (by simpa using hnotmem)]
    refine ⟨?_, ?_, ?_, by simpa using hrng, by simpa using htap⟩
    · simp only [List.filter_append]
      simp [hf, he]
    · simpa using hres
    · simp only []
      rw [List.map_append]
      simp [hnum]

theorem c1_run (N : Nat) (hN : 1 ≤ N) : ∀ (specs done : List RSpec) (t : Tapper),
    C1Inv N done t →
    (∀ sp ∈ specs, 1 ≤ sp.idx ∧ sp.idx ≤ N) →
    ((done ++ specs).map fun x => x.idx).Nodup →
    ∃ t', t.drain (specs.map mkResultLine) = (specs.map mkResultLine, some t') ∧
      C1Inv N (done ++ specs) t' := by
  intro specs
  induction specs with
  | nil =>
    intro done t hinv _ _
    exact ⟨t, by simp [Tapper.drain], by simpa using hinv⟩
  | cons sp rest ih =>
    intro done t hinv hmem hnd
    have hfresh : sp.idx ∉ done.map fun x => x.idx := by
      intro hmem'
      rw [List.map_append] at hnd
      have hdisj := (List.nodup_append.1 hnd).2.2
      exact hdisj hmem' (by simp)
    obtain ⟨t', hstep, hinv'⟩ :=
      c1_step N hN done t sp hinv (hmem sp (by simp)).1 (hmem sp (by simp)).2 hfresh
    have hnd' : (((done ++ [sp]) ++ rest).map fun x => x.idx).Nodup := by
      have : (done ++ [sp]) ++ rest = done ++ sp :: rest := by simp
      rw [this]
      exact hnd
    obtain ⟨t'', hdrain, hinv''⟩ :=
      ih (done ++ [sp]) t' hinv' (fun x hx => hmem x (by simp [hx])) hnd'
    refine ⟨t'', ?_, ?_⟩
    · show Tapper.drain t (mkResultLine sp :: rest.map mkResultLine) = _
      rw [Tapper.drain, hstep]
      dsimp only
      rw [hdrain]
      simp
    · have : (done ++ [sp]) ++ rest = done ++ sp :: rest := by simp
      rw [this] at hinv''
      exact hinv''

theorem finalize_clean (t : Tapper) (h1 : 0 < t.range.length) (h2 : 0 < t.results.length)
    (h3 : t.numbers.length ≤ t.range.length) (h4 : t.results.length ≤ t.range.length) :
    t.finalize = { t with error_count := (t.errors.length : Int) + t.tap_errors.length } := by
  unfold Tapper.finalize
  dsimp only
  rw [if_neg (by omega), if_neg (by omega), if_neg (by omega)]

/-- C1: for a stream of one range declaration `1..N` followed by exactly N
result lines numbered `1..N` without duplicates, the finalized
`error_count` is the number of `not ok` lines and the exit code is that
count capped at 100. -/
theorem c1_valid_stream (th : Theme) (N : Nat) (hN : 1 ≤ N) (specs : List RSpec)
    (hlen : specs.length = N)
    (hmem : ∀ sp ∈ specs, 1 ≤ sp.idx ∧ sp.idx ≤ N)
    (hnd : (specs.map fun x => x.idx).Nodup) :
    ∃ out s,
      Tapper.drain { Tapper.init with emoji := th }
          (rangeLine N :: specs.map mkResultLine) = (out, some s) ∧
      s.finalize.error_count = ((specs.filter fun sp => sp.fail).length : Int) ∧
      (((specs.filter fun sp => sp.fail).length : Int) ≤ 100 →
        s.finalize.exit_code = some ((specs.filter fun sp => sp.fail).length : Int)) := by
  set t0 : Tapper := { Tapper.init with emoji := th } with ht0
  have hstep0 := process_line_rangeLine t0 N hN rfl
  set t1 : Tapper := { t0 with range := intRange 1 (N : Int) } with ht1
  have hinv1 : C1Inv N [] t1 := by
    refine ⟨rfl, rfl, rfl, rfl, rfl⟩
  obtain ⟨s, hdrain, hinv⟩ := c1_run N hN specs [] t1 hinv1 hmem (by simpa using hnd)
  obtain ⟨he, hres, hnum, hrng, htap⟩ := hinv
  simp only [List.nil_append] at he hres hnum
  have hrlen : t1.range.length = N := by
    show (intRange 1 (N : Int)).length = N
    rw [intRange_length]
    omega
  have hrlen' : s.range.length = N := by rw [hrng, intRange_length]; omega
  have hnlen : s.numbers.length = N := by rw [hnum, List.length_map, hlen]
  refine ⟨(⟨'1' :: ' ' :: natRepr N⟩ ++ "\n") :: rangeLine N :: specs.map mkResultLine, s,
    ?_, ?_, ?_⟩
  · show Tapper.drain t0 (rangeLine N :: specs.map mkResultLine) = _
    rw [Tapper.drain, hstep0]
    dsimp only
    rw [hdrain]
    simp
  · rw [finalize_clean s (by omega) (by omega) (by omega) (by omega)]
    show (s.errors.length : Int) + (s.tap_errors.length : Int) = _
    rw [he, htap]
    simp
  · intro hle
    rw [finalize_clean s (by omega) (by omega) (by omega) (by omega)]
    unfold Tapper.exit_code
    dsimp only
    rw [if_neg (by rw [he, htap]; simp)]
    rw [he, htap]
    simp only [List.length_nil, Nat.cast_zero, add_zero]
    rw [min_eq_left hle]

theorem mrSpec_nodup (word : String) (rng : List Int) (taps : List String)
    (p : List Int × List String)
    (h : (mrSpec word rng taps).2 = some p) (hr : rng.Nodup) : p.1.Nodup := by
  unfold mrSpec at h
  dsimp only at h
  split_ifs at h with h1 h2
  · injection h with h
    subst h
    exact hr
  · injection h with h
    subst h
    exact hr
  · cases ha : pyInt ((pySplit (pyReplace word ".." " ")).getD 0 "") with
    | none => rw [ha] at h; exact absurd h (by simp)
    | some a =>
      cases hb : pyInt ((pySplit (pyReplace word ".." " ")).getD 1 "") with
      | none => rw [ha, hb] at h; exact absurd h (by simp)
      | some b =>
        rw [ha, hb] at h
        dsimp only at h
        by_cases hab : a > b
        · rw [if_pos hab] at h
          injection h with h
          subst h
          exact hr
        · rw [if_neg hab] at h
          injection h with h
          subst h
          have hT := addRange_nodup word (intRange a b)
            { Tapper.init with range := rng, tap_errors := taps } hr
          rw [addRange_eq] at hT
          exact hT

theorem plTail_untouched (t : Tapper) (line : String) (out : List String) (t' : Tapper)
    (h : plTail t line = (out, some t')) :
    t'.errors = t.errors ∧ t'.successes = t.successes ∧ t'.results = t.results ∧
    t'.numbers = t.numbers ∧ t'.emoji = t.emoji ∧ t'.ascii = t.ascii ∧
    t'.error_count = t.error_count ∧ (t.range.Nodup → t'.range.Nodup) := by
  unfold plTail at h
  dsimp only at h
  split_ifs at h with hc
  · rw [maybe_range_eq] at h
    cases hm : (mrSpec ((pySplit (pyStrip line)).getD 0 "") t.range t.tap_errors).2 with
    | none =>
      rw [hm] at h
      exact absurd h (by simp)
    | some p =>
      rw [hm] at h
      dsimp only [Option.map_some'] at h
      injection h with ho hs
      injection hs with hs
      subst hs
      exact ⟨rfl, rfl, rfl, rfl, rfl, rfl, rfl, mrSpec_nodup _ _ _ p hm⟩
  · injection h with ho hs
    injection hs with hs
    subst hs
    exact ⟨rfl, rfl, rfl, rfl, rfl, rfl, rfl, fun hh => hh⟩

theorem process_line_nodup (t : Tapper) (line : String) (out : List String) (t' : Tapper)
    (h : t.process_line line = (out, some t'))
    (hn : t.numbers.Nodup) (hr : t.range.Nodup) :
    t'.numbers.Nodup ∧ t'.range.Nodup := by
  by_cases hok : pyStartsWith (pyStrip line) "ok" = true
  · cases htk : (pySplit (pyStrip line)).get? 1 with
    | none =>
      rw [process_line_ok_crash t line hok htk] at h
      exact absurd h (by simp)
    | some tok =>
      rw [process_line_ok t line tok hok htk] at h
      obtain ⟨_, _, _, hnum, _, _, _, hrng⟩ := plTail_untouched _ _ _ _ h
      refine ⟨?_, ?_⟩
      · rw [hnum]
        exact found_number_nodup _ tok hn
      · refine hrng ?_
        rw [(found_number_untouched _ tok).2.2.2.1]
        exact hr
  · have hok' : pyStartsWith (pyStrip line) "ok" = false := by
      simpa using hok
    by_cases hnot : pyStartsWith (pyStrip line) "not ok" = true
    · cases htk : (pySplit (pyStrip line)).get? 2 with
      | none =>
        rw [process_line_notok_crash t line hok' hnot htk] at h
        exact absurd h (by simp)
      | some tok =>
        rw [process_line_notok t line tok hok' hnot htk] at h
        obtain ⟨_, _, _, hnum, _, _, _, hrng⟩ := plTail_untouched _ _ _ _ h
        refine ⟨?_, ?_⟩
        · rw [hnum]
          exact found_number_nodup _ tok hn
        · refine hrng ?_
          rw [(found_number_untouched _ tok).2.2.2.1]
          exact hr
    · have hnot' : pyStartsWith (pyStrip line) "not ok" = false := by
        simpa using hnot
      rw [process_line_other t line hok' hnot'] at h
      obtain ⟨_, _, _, hnum, _, _, _, hrng⟩ := plTail_untouched _ _ _ _ h
      exact ⟨by rw [hnum]; exact hn, hrng hr⟩

theorem drain_nodup : ∀ (lines : List String) (t : Tapper) (out : List String) (s : Tapper),
    t.drain lines = (out, some s) → t.numbers.Nodup → t.range.Nodup →
    s.numbers.Nodup ∧ s.range.Nodup := by
  intro lines
  induction lines with
  | nil =>
    intro t out s h hn hr
    rw [Tapper.drain] at h
    injection h with ho hs
    injection hs with hs
    subst hs
    exact ⟨hn, hr⟩
  | cons l ls ih =>
    intro t out s h hn hr
    rw [Tapper.drain] at h
    cases hp : t.process_line l with
    | mk o1 r1 =>
      cases r1 with
      | none => rw [hp] at h; exact absurd h (by simp)
      | some t1 =>
        rw [hp] at h
        dsimp only at h
        obtain ⟨hn1, hr1⟩ := process_line_nodup t l o1 t1 hp hn hr
        cases hd : t1.drain ls with
        | mk o2 r2 =>
          rw [hd] at h
          injection h with ho hs
          subst hs
          exact ih t1 o2 s hd hn1 hr1

theorem summarize_state (t : Tapper) :
    t.summarize.1 =
      { t with tap_errors := t.tap_errors.map fun x => prefixed x t.emoji.disaster } := by
  unfold Tapper.summarize
  dsimp only
  split_ifs <;> rfl

/-! ### Claim theorems -/

/-- C2: the claim says no input line ever raises and that a first token
containing `".."` which does not parse as a range is silently ignored.
The code violates this: on the line `"a..b\n"` the token passes the dot
check and the two-part check, and `int("a")` raises an uncaught
`ValueError` (modelled by the `none` state), aborting the stream after
printing `"a b"`.  The line `"ok\n"` likewise raises `IndexError`. -/
theorem c2_process_line_crashes :
    Tapper.init.process_line "a..b\n" = (["a b\n"], none) ∧
    Tapper.init.process_line "ok\n" = ([], none) := by decide

/-- C3: after finalize, `error_count` is non-negative, `exit_code` returns
`min(error_count, 100)`, an integer in `[0, 100]`, and any state with more
than 100 combined failures and protocol errors yields exactly 100. -/
theorem c3_exit_code_clamped (t : Tapper) :
    0 ≤ t.finalize.error_count ∧
    t.finalize.exit_code = some (min t.finalize.error_count 100) ∧
    0 ≤ min t.finalize.error_count 100 ∧ min t.finalize.error_count 100 ≤ 100 ∧
    (100 < t.finalize.error_count → t.finalize.exit_code = some 100) := by
  have hnn : 0 ≤ t.finalize.error_count := by
    unfold Tapper.finalize
    dsimp only
    split_ifs <;> (try dsimp only) <;> positivity
  refine ⟨hnn, ?_, ?_, ?_, ?_⟩
  · unfold Tapper.exit_code
    rw [if_neg (by omega)]
  · omega
  · omega
  · intro hgt
    unfold Tapper.exit_code
    rw [if_neg (by omega)]
    rw [min_eq_right (by omega)]

/-- Witness for C3 at a state producing 103 protocol errors. -/
theorem c3_exit_code_clamped_witness :
    100 < (Tapper.finalize
        { Tapper.init with tap_errors := List.replicate 101 "e" }).error_count ∧
      (Tapper.finalize
        { Tapper.init with tap_errors := List.replicate 101 "e" }).exit_code = some 100 :=
  ⟨by decide,
    (c3_exit_code_clamped { Tapper.init with tap_errors := List.replicate 101 "e" }).2.2.2.2
      (by decide)⟩

/-- C4 counterexample: processing the line `"1..4\n"` writes the extra
line `"1 4\n"` (the `print(processed)` in `maybe_range`) before echoing
the input line, so the echo is not the only streaming output. -/
theorem c4_counterexample :
    (Tapper.init.process_line "1..4\n").1 = ["1 4\n", "1..4\n"] ∧
    (Tapper.init.process_line "1..4\n").1 ≠ ["1..4\n"] := by decide

theorem mrSpec_out (word : String) (rng : List Int) (taps : List String) :
    (mrSpec word rng taps).1 = [pyReplace word ".." " " ++ "\n"] := by
  unfold mrSpec
  dsimp only
  split_ifs
  · rfl
  · rfl
  · cases pyInt ((pySplit (pyReplace word ".." " ")).getD 0 "") with
    | none => rfl
    | some a =>
      cases pyInt ((pySplit (pyReplace word ".." " ")).getD 1 "") with
      | none => rfl
      | some b =>
        show (if a > b then _ else _ : List String × Option (List Int × List String)).1 = _
        split_ifs <;> rfl

theorem plTail_out (t : Tapper) (line : String) (out : List String) (t' : Tapper)
    (h : plTail t line = (out, some t')) :
    out = (if (pySplit (pyStrip line)).length > 0 ∧
          pySubstr ".." ((pySplit (pyStrip line)).getD 0 "") = true then
        [pyReplace ((pySplit (pyStrip line)).getD 0 "") ".." " " ++ "\n"]
      else []) ++ [line] := by
  unfold plTail at h
  dsimp only at h
  split_ifs at h with hc
  · rw [maybe_range_eq] at h
    cases hm : (mrSpec ((pySplit (pyStrip line)).getD 0 "") t.range t.tap_errors).2 with
    | none =>
      rw [hm] at h
      exact absurd h (by simp)
    | some p =>
      rw [hm] at h
      dsimp only [Option.map_some'] at h
      injection h with ho hs
      rw [if_pos hc, ← ho, mrSpec_out]
  · injection h with ho hs
    rw [if_neg hc, ← ho]
    simp

/-- C4 amended: processing a line writes the echoed line verbatim, and
additionally, when the trimmed line's first whitespace-separated token
contains `".."`, the token with `".."` replaced by spaces is written as
its own line before the echo. -/
theorem c4_streaming_output (t : Tapper) (line : String) (out : List String) (t' : Tapper)
    (h : t.process_line line = (out, some t')) :
    out = (if (pySplit (pyStrip line)).length > 0 ∧
          pySubstr ".." ((pySplit (pyStrip line)).getD 0 "") = true then
        [pyReplace ((pySplit (pyStrip line)).getD 0 "") ".." " " ++ "\n"]
      else []) ++ [line] := by
  by_cases hok : pyStartsWith (pyStrip line) "ok" = true
  · cases htk : (pySplit (pyStrip line)).get? 1 with
    | none =>
      rw [process_line_ok_crash t line hok htk] at h
      exact absurd h (by simp)
    | some tok =>
      rw [process_line_ok t line tok hok htk] at h
      exact plTail_out _ _ _ _ h
  · have hok' : pyStartsWith (pyStrip line) "ok" = false := by simpa using hok
    by_cases hnot : pyStartsWith (pyStrip line) "not ok" = true
    · cases htk : (pySplit (pyStrip line)).get? 2 with
      | none =>
        rw [process_line_notok_crash t line hok' hnot htk] at h
        exact absurd h (by simp)
      | some tok =>
        rw [process_line_notok t line tok hok' hnot htk] at h
        exact plTail_out _ _ _ _ h
    · have hnot' : pyStartsWith (pyStrip line) "not ok" = false := by simpa using hnot
      rw [process_line_other t line hok' hnot'] at h
      exact plTail_out _ _ _ _ h

/-- Witness for the amended C4 at the line `"1..4\n"`. -/
theorem c4_streaming_output_witness :
    (["1 4\n", "1..4\n"] : List String) =
      (if (pySplit (pyStrip "1..4\n")).length > 0 ∧
          pySubstr ".." ((pySplit (pyStrip "1..4\n")).getD 0 "") = true then
        [pyReplace ((pySplit (pyStrip "1..4\n")).getD 0 "") ".." " " ++ "\n"]
      else []) ++ ["1..4\n"] :=
  c4_streaming_output Tapper.init "1..4\n" ["1 4\n", "1..4\n"]
    ((Tapper.init.process_line "1..4\n").2.getD Tapper.init) (by decide)

/-- Witness for C1: range `1..2`, one passing and one failing test. -/
theorem c1_valid_stream_witness :
    (1 : Nat) ≤ 2 ∧
    ∃ out s,
      Tapper.drain { Tapper.init with emoji := emojiTheme }
          (rangeLine 2 ::
            ([⟨false, 1, "a"⟩, ⟨true, 2, "b"⟩] : List RSpec).map mkResultLine) =
        (out, some s) ∧
      s.finalize.error_count =
        ((([⟨false, 1, "a"⟩, ⟨true, 2, "b"⟩] : List RSpec).filter
          fun sp => sp.fail).length : Int) ∧
      (((([⟨false, 1, "a"⟩, ⟨true, 2, "b"⟩] : List RSpec).filter
            fun sp => sp.fail).length : Int) ≤ 100 →
        s.finalize.exit_code =
          some ((([⟨false, 1, "a"⟩, ⟨true, 2, "b"⟩] : List RSpec).filter
            fun sp => sp.fail).length : Int)) :=
  ⟨by decide,
    c1_valid_stream emojiTheme 2 (by decide) [⟨false, 1, "a"⟩, ⟨true, 2, "b"⟩]
      (by decide) (by decide) (by decide)⟩

/-- C5 counterexample: under range `1..1`, the result line `"ok x\n"` has
an unparsable test number, yet the fits-in-range check still runs (the
"doesn't fit" error is recorded) and the raw token is inserted into
`numbers`, so validation does not short-circuit. -/
theorem c5_counterexample :
    ((Tapper.init.drain ["1..1\n", "ok x\n"]).2.getD Tapper.init).tap_errors =
        ["Invalid test number: 'x'",
          "Test result x doesn't fit into any previous range"] ∧
      PyNum.str "x" ∈ ((Tapper.init.drain ["1..1\n", "ok x\n"]).2.getD Tapper.init).numbers ∧
      (Tapper.init.drain ["1..1\n", "ok x\n"]).2 ≠ none := by decide

/-- C5 amended: on an unparsable token exactly one
`Invalid test number` error is appended, and validation continues with
the raw string token: the no-range or fits-in-range check runs against it
(the fits check necessarily fires once a range exists, since a string
never equals a range integer), the duplicate check runs, and the string
token is inserted into `numbers` when not already present. -/
theorem c5_invalid_number_falls_through (t : Tapper) (tok : String)
    (h : pyInt tok = none) :
    (t.found_number tok).tap_errors =
      (t.tap_errors ++ ["Invalid test number: '" ++ tok ++ "'"]) ++
        ((if t.range.length = 0 then ["No test range defined before result no. " ++ tok]
          else ["Test result " ++ tok ++ " doesn't fit into any previous range"]) ++
          (if PyNum.str tok ∈ t.numbers then ["Multiple results for test no. " ++ tok]
            else [])) ∧
    (t.found_number tok).numbers =
      (if PyNum.str tok ∈ t.numbers then t.numbers else t.numbers ++ [PyNum.str tok]) := by
  rw [found_number_eq]
  show (fnSpec t.numbers t.range t.tap_errors tok).2 = _ ∧
    (fnSpec t.numbers t.range t.tap_errors tok).1 = _
  unfold fnSpec
  rw [h]
  dsimp only
  by_cases h0 : t.range.length = 0 <;> by_cases hm : PyNum.str tok ∈ t.numbers <;>
    constructor <;> simp [h0, hm, numInIntList_str, pyNumStr]

/-- Witness for the amended C5 with token `"x"` and a declared range. -/
theorem c5_invalid_number_falls_through_witness :
    pyInt "x" = none ∧
    ((Tapper.found_number { Tapper.init with range := [1] } "x").tap_errors =
        (({ Tapper.init with range := [1] } : Tapper).tap_errors ++
          ["Invalid test number: '" ++ "x" ++ "'"]) ++
          ((if ({ Tapper.init with range := [1] } : Tapper).range.length = 0 then
              ["No test range defined before result no. " ++ "x"]
            else ["Test result " ++ "x" ++ " doesn't fit into any previous range"]) ++
            (if PyNum.str "x" ∈ ({ Tapper.init with range := [1] } : Tapper).numbers then
              ["Multiple results for test no. " ++ "x"]
            else [])) ∧
      (Tapper.found_number { Tapper.init with range := [1] } "x").numbers =
        (if PyNum.str "x" ∈ ({ Tapper.init with range := [1] } : Tapper).numbers then
          ({ Tapper.init with range := [1] } : Tapper).numbers
        else ({ Tapper.init with range := [1] } : Tapper).numbers ++ [PyNum.str "x"])) :=
  ⟨by decide, c5_invalid_number_falls_through { Tapper.init with range := [1] } "x" (by decide)⟩

/-- C6 counterexample: the empty run is sealed by one `finalize`
(`errorCount = 2`); running `finalize` again re-appends the
finalize-time errors and raises `errorCount` to 4, so `finalize` is not
idempotent on this reachable sealed state. -/
theorem c6_counterexample :
    Tapper.init.finalize.finalize.error_count ≠ Tapper.init.finalize.error_count ∧
    Tapper.init.finalize.error_count = 2 ∧
    Tapper.init.finalize.finalize.error_count = 4 := by decide

/-- C6 amended: `finalize` is idempotent exactly on states where no
finalize-time check fires: non-empty declared range, at least one result,
and neither the seen-number count nor the result count exceeding the
range size.  On such states a second `finalize` changes nothing. -/
theorem c6_finalize_idempotent_when_clean (t : Tapper) (h1 : t.range ≠ [])
    (h2 : t.results ≠ []) (h3 : t.numbers.length ≤ t.range.length)
    (h4 : t.results.length ≤ t.range.length) :
    t.finalize.finalize = t.finalize := by
  have hp1 : 0 < t.range.length := List.length_pos.2 h1
  have hp2 : 0 < t.results.length := List.length_pos.2 h2
  rw [finalize_clean t hp1 hp2 h3 h4]
  rw [finalize_clean
    { t with error_count := (t.errors.length : Int) + t.tap_errors.length } hp1 hp2 h3 h4]

/-- Witness for the amended C6 on the sealed state of a clean run. -/
theorem c6_finalize_idempotent_when_clean_witness :
    Tapper.finalize (Tapper.finalize
        ((Tapper.init.drain ["1..1\n", "ok 1\n"]).2.getD Tapper.init)) =
      Tapper.finalize ((Tapper.init.drain ["1..1\n", "ok 1\n"]).2.getD Tapper.init) :=
  c6_finalize_idempotent_when_clean ((Tapper.init.drain ["1..1\n", "ok 1\n"]).2.getD Tapper.init)
    (by decide) (by decide) (by decide) (by decide)

/-- C7 counterexample: `"okay stuff\n"` has first whitespace-separated
token `"okay"`, not `"ok"`, yet the `startswith("ok")` test records a
success ResultRecord for it. -/
theorem c7_counterexample :
    ((Tapper.init.process_line "okay stuff\n").2.getD Tapper.init).successes =
        ["✅  | okay stuff"] ∧
      ((Tapper.init.process_line "okay stuff\n").2.getD Tapper.init).results =
        ["✅  | okay stuff"] ∧
      (pySplit (pyStrip "okay stuff\n")).getD 0 "" = "okay" ∧
      ("okay" : String) ≠ "ok" := by decide

/-- C7 amended: a line is recorded as a success ResultRecord iff its
trimmed text starts with the string `"ok"` (a string-prefix test, not a
first-token test), as a failure ResultRecord iff it starts with
`"not ok"`, and no other line produces a ResultRecord. -/
theorem c7_record_classification (t : Tapper) (line : String) (out : List String)
    (t' : Tapper) (h : t.process_line line = (out, some t')) :
    (pyStartsWith (pyStrip line) "ok" = true →
      t'.successes = t.successes ++ [prefixed (pyStrip line) t.emoji.success] ∧
      t'.results = t.results ++ [prefixed (pyStrip line) t.emoji.success] ∧
      t'.errors = t.errors) ∧
    (pyStartsWith (pyStrip line) "ok" = false →
      pyStartsWith (pyStrip line) "not ok" = true →
      t'.errors = t.errors ++ [prefixed (pyStrip line) t.emoji.failure] ∧
      t'.results = t.results ++ [prefixed (pyStrip line) t.emoji.failure] ∧
      t'.successes = t.successes) ∧
    (pyStartsWith (pyStrip line) "ok" = false →
      pyStartsWith (pyStrip line) "not ok" = false →
      t'.successes = t.successes ∧ t'.errors = t.errors ∧ t'.results = t.results) := by
  refine ⟨?_, ?_, ?_⟩
  · intro hok
    cases htk : (pySplit (pyStrip line)).get? 1 with
    | none =>
      rw [process_line_ok_crash t line hok htk] at h
      exact absurd h (by simp)
    | some tok =>
      rw [process_line_ok t line tok hok htk] at h
      obtain ⟨herr, hsucc, hres, _⟩ := plTail_untouched _ _ _ _ h
      obtain ⟨fe, fs, fr, _⟩ := found_number_untouched
        { t with successes := t.successes ++ [prefixed (pyStrip line) t.emoji.success],
                 results := t.results ++ [prefixed (pyStrip line) t.emoji.success] } tok
      exact ⟨by rw [hsucc, fs], by rw [hres, fr], by rw [herr, fe]⟩
  · intro hok hnot
    cases htk : (pySplit (pyStrip line)).get? 2 with
    | none =>
      rw [process_line_notok_crash t line hok hnot htk] at h
      exact absurd h (by simp)
    | some tok =>
      rw [process_line_notok t line tok hok hnot htk] at h
      obtain ⟨herr, hsucc, hres, _⟩ := plTail_untouched _ _ _ _ h
      obtain ⟨fe, fs, fr, _⟩ := found_number_untouched
        { t with errors := t.errors ++ [prefixed (pyStrip line) t.emoji.failure],
                 results := t.results ++ [prefixed (pyStrip line) t.emoji.failure] } tok
      exact ⟨by rw [herr, fe], by rw [hres, fr], by rw [hsucc, fs]⟩
  · intro hok hnot
    rw [process_line_other t line hok hnot] at h
    obtain ⟨herr, hsucc, hres, _⟩ := plTail_untouched _ _ _ _ h
    exact ⟨hsucc, herr, hres⟩

/-- Witness for the amended C7 at the line `"ok 1\n"`. -/
theorem c7_record_classification_witness :
    pyStartsWith (pyStrip "ok 1\n") "ok" = true ∧
    ((Tapper.init.process_line "ok 1\n").2.getD Tapper.init).successes =
      Tapper.init.successes ++ [prefixed (pyStrip "ok 1\n") Tapper.init.emoji.success] :=
  ⟨by decide,
    ((c7_record_classification Tapper.init "ok 1\n" ["ok 1\n"]
      ((Tapper.init.process_line "ok 1\n").2.getD Tapper.init) (by decide)).1
      (by decide)).1⟩

/-- C8 counterexample: on the sealed state of the run `["ok 1\n"]` (which
has protocol errors), producing the summary rewrites `tap_errors` in
place, so the state is mutated and a recomputed summary differs. -/
theorem c8_counterexample :
    (Tapper.summarize
        (Tapper.finalize ((Tapper.init.drain ["ok 1\n"]).2.getD Tapper.init))).1.tap_errors ≠
      (Tapper.finalize ((Tapper.init.drain ["ok 1\n"]).2.getD Tapper.init)).tap_errors ∧
    (Tapper.summarize (Tapper.summarize
        (Tapper.finalize ((Tapper.init.drain ["ok 1\n"]).2.getD Tapper.init))).1).2 ≠
      (Tapper.summarize
        (Tapper.finalize ((Tapper.init.drain ["ok 1\n"]).2.getD Tapper.init))).2 := by decide

/-- C8 amended: producing the summary mutates exactly `tap_errors`
(replacing each entry with a disaster-prefixed copy) and no other field;
consequently, on a sealed state with no protocol errors the state is
unchanged and recomputing the summary yields the same lines. -/
theorem c8_summarize_readonly_iff_no_errors (t : Tapper) (htap : t.tap_errors = []) :
    t.summarize.1 = t ∧ t.summarize.1.summarize.2 = t.summarize.2 := by
  have hstate : t.summarize.1 = t := by
    rw [summarize_state, htap]
    show { t with tap_errors := ([] : List String) } = t
    rw [← htap]
  exact ⟨hstate, by rw [hstate]⟩

/-- Witness for the amended C8 on the sealed state of a clean run. -/
theorem c8_summarize_readonly_witness :
    (Tapper.summarize
        (Tapper.finalize ((Tapper.init.drain ["1..1\n", "ok 1\n"]).2.getD Tapper.init))).1 =
      Tapper.finalize ((Tapper.init.drain ["1..1\n", "ok 1\n"]).2.getD Tapper.init) ∧
    (Tapper.summarize (Tapper.summarize
        (Tapper.finalize
          ((Tapper.init.drain ["1..1\n", "ok 1\n"]).2.getD Tapper.init))).1).2 =
      (Tapper.summarize
        (Tapper.finalize ((Tapper.init.drain ["1..1\n", "ok 1\n"]).2.getD Tapper.init))).2 :=
  c8_summarize_readonly_iff_no_errors
    (Tapper.finalize ((Tapper.init.drain ["1..1\n", "ok 1\n"]).2.getD Tapper.init)) (by decide)

/-- C10: after any sequence of processed lines, the seen-number list and
the declared-range list contain no duplicates: each insertion is guarded
by a membership test that reports a protocol error instead of inserting
a duplicate. -/
theorem c10_numbers_range_nodup (th : Theme) (lines : List String) (out : List String)
    (s : Tapper) (h : Tapper.drain { Tapper.init with emoji := th } lines = (out, some s)) :
    s.numbers.Nodup ∧ s.range.Nodup :=
  drain_nodup lines { Tapper.init with emoji := th } out s h (by simp [Tapper.init])
    (by simp [Tapper.init])

/-- Witness for C10 on a run with overlapping ranges and duplicates. -/
theorem c10_numbers_range_nodup_witness :
    (((Tapper.init.drain ["1..2\n", "2..3\n", "ok 1\n", "ok 1\n"]).2.getD
        Tapper.init).numbers.Nodup ∧
      ((Tapper.init.drain ["1..2\n", "2..3\n", "ok 1\n", "ok 1\n"]).2.getD
        Tapper.init).range.Nodup) :=
  c10_numbers_range_nodup emojiTheme ["1..2\n", "2..3\n", "ok 1\n", "ok 1\n"]
    ((Tapper.init.drain ["1..2\n", "2..3\n", "ok 1\n", "ok 1\n"]).1)
    ((Tapper.init.drain ["1..2\n", "2..3\n", "ok 1\n", "ok 1\n"]).2.getD Tapper.init)
    (by decide)

/-! ### Theme independence -/

/-- Render a classified record (failure flag, trimmed text) with a theme. -/
def renderRec (th : Theme) (p : Bool × String) : String :=
  prefixed p.2 (if p.1 then th.failure else th.success)

/-- Two runs differing only in the theme table: all theme-independent
fields agree, and the themed record lists are renderings of one common
classified list. -/
def ThemedRel (t1 t2 : Theme) (s1 s2 : Tapper) : Prop :=
  s1.emoji = t1 ∧ s2.emoji = t2 ∧
  s1.numbers = s2.numbers ∧ s1.range = s2.range ∧ s1.tap_errors = s2.tap_errors ∧
  s1.error_count = s2.error_count ∧
  ∃ rec : List (Bool × String),
    s1.results = rec.map (renderRec t1) ∧ s2.results = rec.map (renderRec t2) ∧
    s1.successes = (rec.filter fun p => !p.1).map (renderRec t1) ∧
    s2.successes = (rec.filter fun p => !p.1).map (renderRec t2) ∧
    s1.errors = (rec.filter fun p => p.1).map (renderRec t1) ∧
    s2.errors = (rec.filter fun p => p.1).map (renderRec t2)

theorem found_number_themed (t1 t2 : Theme) (s1 s2 : Tapper) (tok : String)
    (hR : ThemedRel t1 t2 s1 s2) :
    ThemedRel t1 t2 (s1.found_number tok) (s2.found_number tok) := by
  obtain ⟨he1, he2, hn, hr, ht, hec, rec, h1, h2, h3, h4, h5, h6⟩ := hR
  rw [found_number_eq, found_number_eq, hn, hr, ht]
  exact ⟨he1, he2, rfl, rfl, rfl, hec, rec, h1, h2, h3, h4, h5, h6⟩

theorem plTail_themed (t1 t2 : Theme) (s1 s2 : Tapper) (line : String)
    (hR : ThemedRel t1 t2 s1 s2) :
    (plTail s1 line).1 = (plTail s2 line).1 ∧
    ((plTail s1 line).2 = none ↔ (plTail s2 line).2 = none) ∧
    ∀ r1 r2, (plTail s1 line).2 = some r1 → (plTail s2 line).2 = some r2 →
      ThemedRel t1 t2 r1 r2 := by
  obtain ⟨he1, he2, hn, hr, ht, hec, rec, h1, h2, h3, h4, h5, h6⟩ := hR
  unfold plTail
  dsimp only
  split_ifs with hc
  · rw [maybe_range_eq, maybe_range_eq, hr, ht]
    cases hm : (mrSpec ((pySplit (pyStrip line)).getD 0 "") s2.range s2.tap_errors).2 with
    | none =>
      exact ⟨rfl, by simp, fun r1 r2 hr1 _ => absurd hr1 (by simp)⟩
    | some p =>
      dsimp only [Option.map_some']
      refine ⟨rfl, by simp, ?_⟩
      intro r1 r2 hr1 hr2
      injection hr1 with hr1
      injection hr2 with hr2
      subst hr1
      subst hr2
      exact ⟨he1, he2, hn, rfl, rfl, hec, rec, h1, h2, h3, h4, h5, h6⟩
  · refine ⟨rfl, by simp, ?_⟩
    intro r1 r2 hr1 hr2
    injection hr1 with hr1
    injection hr2 with hr2
    subst hr1
    subst hr2
    exact ⟨he1, he2, hn, hr, ht, hec, rec, h1, h2, h3, h4, h5, h6⟩

theorem process_line_themed (t1 t2 : Theme) (s1 s2 : Tapper) (line : String)
    (hR : ThemedRel t1 t2 s1 s2) :
    (s1.process_line line).1 = (s2.process_line line).1 ∧
    ((s1.process_line line).2 = none ↔ (s2.process_line line).2 = none) ∧
    ∀ r1 r2, (s1.process_line line).2 = some r1 → (s2.process_line line).2 = some r2 →
      ThemedRel t1 t2 r1 r2 := by
  obtain ⟨he1, he2, hn, hr, ht, hec, rec, h1, h2, h3, h4, h5, h6⟩ := hR
  by_cases hok : pyStartsWith (pyStrip line) "ok" = true
  · cases htk : (pySplit (pyStrip line)).get? 1 with
    | none =>
      rw [process_line_ok_crash s1 line hok htk, process_line_ok_crash s2 line hok htk]
      exact ⟨rfl, by simp, fun r1 r2 hr1 _ => absurd hr1 (by simp)⟩
    | some tok =>
      rw [process_line_ok s1 line tok hok htk, process_line_ok s2 line tok hok htk]
      apply plTail_themed
      apply found_number_themed
      refine ⟨he1, he2, hn, hr, ht, hec, rec ++ [(false, pyStrip line)], ?_, ?_, ?_, ?_, ?_, ?_⟩
      · show s1.results ++ [prefixed (pyStrip line) s1.emoji.success] = _
        simp [h1, he1, renderRec]
      · show s2.results ++ [prefixed (pyStrip line) s2.emoji.success] = _
        simp [h2, he2, renderRec]
      · show s1.successes ++ [prefixed (pyStrip line) s1.emoji.success] = _
        simp [h3, he1, renderRec, List.filter_append]
      · show s2.successes ++ [prefixed (pyStrip line) s2.emoji.success] = _
        simp [h4, he2, renderRec, List.filter_append]
      · show s1.errors = _
        simp [h5, List.filter_append]
      · show s2.errors = _
        simp [h6, List.filter_append]
  · have hok' : pyStartsWith (pyStrip line) "ok" = false := by simpa using hok
    by_cases hnot : pyStartsWith (pyStrip line) "not ok" = true
    · cases htk : (pySplit (pyStrip line)).get? 2 with
      | none =>
        rw [process_line_notok_crash s1 line hok' hnot htk,
          process_line_notok_crash s2 line hok' hnot htk]
        exact ⟨rfl, by simp, fun r1 r2 hr1 _ => absurd hr1 (by simp)⟩
      | some tok =>
        rw [process_line_notok s1 line tok hok' hnot htk,
          process_line_notok s2 line tok hok' hnot htk]
        apply plTail_themed
        apply found_number_themed
        refine ⟨he1, he2, hn, hr, ht, hec, rec ++ [(true, pyStrip line)], ?_, ?_, ?_, ?_, ?_, ?_⟩
        · show s1.results ++ [prefixed (pyStrip line) s1.emoji.failure] = _
          simp [h1, he1, renderRec]
        · show s2.results ++ [prefixed (pyStrip line) s2.emoji.failure] = _
          simp [h2, he2, renderRec]
        · show s1.successes = _
          simp [h3, List.filter_append]
        · show s2.successes = _
          simp [h4, List.filter_append]
        · show s1.errors ++ [prefixed (pyStrip line) s1.emoji.failure] = _
          simp [h5, he1, renderRec, List.filter_append]
        · show s2.errors ++ [prefixed (pyStrip line) s2.emoji.failure] = _
          simp [h6, he2, renderRec, List.filter_append]
    · have hnot' : pyStartsWith (pyStrip line) "not ok" = false := by simpa using hnot
      rw [process_line_other s1 line hok' hnot', process_line_other s2 line hok' hnot']
      exact plTail_themed t1 t2 s1 s2 line
        ⟨he1, he2, hn, hr, ht, hec, rec, h1, h2, h3, h4, h5, h6⟩

theorem drain_themed (t1 t2 : Theme) : ∀ (lines : List String) (s1 s2 : Tapper),
    ThemedRel t1 t2 s1 s2 →
    (s1.drain lines).1 = (s2.drain lines).1 ∧
    ((s1.drain lines).2 = none ↔ (s2.drain lines).2 = none) ∧
    ∀ r1 r2, (s1.drain lines).2 = some r1 → (s2.drain lines).2 = some r2 →
      ThemedRel t1 t2 r1 r2 := by
  intro lines
  induction lines with
  | nil =>
    intro s1 s2 hR
    refine ⟨rfl, by simp [Tapper.drain], ?_⟩
    intro r1 r2 hr1 hr2
    rw [Tapper.drain] at hr1 hr2
    injection hr1 with hr1
    injection hr2 with hr2
    subst hr1
    subst hr2
    exact hR
  | cons l ls ih =>
    intro s1 s2 hR
    obtain ⟨ho, hiff, hrel⟩ := process_line_themed t1 t2 s1 s2 l hR
    rw [Tapper.drain, Tapper.drain]
    cases hp1 : s1.process_line l with
    | mk o1 r1 =>
      cases hp2 : s2.process_line l with
      | mk o2 r2 =>
        have ho' : o1 = o2 := by rw [hp1, hp2] at ho; exact ho
        subst ho'
        cases r1 with
        | none =>
          have : r2 = none := by
            rw [hp1, hp2] at hiff
            simpa using hiff.1 rfl
          subst this
          exact ⟨rfl, by simp, fun a b hra _ => absurd hra (by simp)⟩
        | some u1 =>
          cases r2 with
          | none =>
            rw [hp1, hp2] at hiff
            simp at hiff
          | some u2 =>
            have hRu : ThemedRel t1 t2 u1 u2 := by
              apply hrel <;> [rw [hp1]; rw [hp2]]
            obtain ⟨ho2, hiff2, hrel2⟩ := ih u1 u2 hRu
            dsimp only
            refine ⟨by rw [ho2], hiff2, ?_⟩
            intro a b hra hrb
            exact hrel2 a b hra hrb

/-- The effect of `finalize` on (`tap_errors`, `error_count`) as a pure
function of the four captured lengths. -/
def finSpec (errors results numbers test_range : Nat) (taps : List String) :
    List String × Int :=
  let taps := if test_range ≤ 0 then taps ++ ["No test range found"] else taps
  let taps := if results ≤ 0 then taps ++ ["No test results found"] else taps
  let taps :=
    if numbers > test_range ∨ results > test_range then
      taps ++ ["More test results than possible for test range: " ++
        toString (max numbers results) ++ "/" ++ toString test_range]
    else taps
  (taps, (errors : Int) + taps.length)

theorem finalize_eq (t : Tapper) :
    t.finalize =
      { t with
          tap_errors := (finSpec t.errors.length t.results.length t.numbers.length
            t.range.length t.tap_errors).1,
          error_count := (finSpec t.errors.length t.results.length t.numbers.length
            t.range.length t.tap_errors).2 } := by
  unfold Tapper.finalize finSpec
  dsimp only
  split_ifs <;> rfl

theorem finalize_themed (t1 t2 : Theme) (s1 s2 : Tapper) (hR : ThemedRel t1 t2 s1 s2) :
    ThemedRel t1 t2 s1.finalize s2.finalize := by
  obtain ⟨he1, he2, hn, hr, ht, hec, rec, h1, h2, h3, h4, h5, h6⟩ := hR
  have hel : s1.errors.length = s2.errors.length := by rw [h5, h6]; simp
  have hrl : s1.results.length = s2.results.length := by rw [h1, h2]; simp
  have hnl : s1.numbers.length = s2.numbers.length := by rw [hn]
  have hgl : s1.range.length = s2.range.length := by rw [hr]
  rw [finalize_eq, finalize_eq, hel, hrl, hnl, hgl, ht]
  exact ⟨he1, he2, hn, hr, rfl, rfl, rec, h1, h2, h3, h4, h5, h6⟩

/-- C9: for any input stream, the default-theme run and the
`set_ascii` run agree on everything except the glyphs: same streaming
output, same numbers/range/protocol errors, same success, failure and
result counts, same finalized `error_count` and exit code, and their
stored records are renderings of one common classified record list with
the respective theme tables. -/
theorem c9_theme_swap_invariant (lines : List String) (s1 s2 : Tapper)
    (h1 : (Tapper.init.drain lines).2 = some s1)
    (h2 : (Tapper.init.set_ascii.drain lines).2 = some s2) :
    (Tapper.init.drain lines).1 = (Tapper.init.set_ascii.drain lines).1 ∧
    s1.numbers = s2.numbers ∧ s1.range = s2.range ∧ s1.tap_errors = s2.tap_errors ∧
    s1.successes.length = s2.successes.length ∧ s1.errors.length = s2.errors.length ∧
    s1.results.length = s2.results.length ∧
    s1.finalize.error_count = s2.finalize.error_count ∧
    s1.finalize.exit_code = s2.finalize.exit_code ∧
    (∃ rec : List (Bool × String),
      s1.results = rec.map (renderRec emojiTheme) ∧
      s2.results = rec.map (renderRec asciiTheme) ∧
      s1.errors = (rec.filter fun p => p.1).map (renderRec emojiTheme) ∧
      s2.errors = (rec.filter fun p => p.1).map (renderRec asciiTheme) ∧
      s1.successes = (rec.filter fun p => !p.1).map (renderRec emojiTheme) ∧
      s2.successes = (rec.filter fun p => !p.1).map (renderRec asciiTheme)) := by
  have hR0 : ThemedRel emojiTheme asciiTheme Tapper.init Tapper.init.set_ascii :=
    ⟨rfl, rfl, rfl, rfl, rfl, rfl, [], rfl, rfl, rfl, rfl, rfl, rfl⟩
  obtain ⟨ho, _, hrel⟩ := drain_themed emojiTheme asciiTheme lines _ _ hR0
  have hR : ThemedRel emojiTheme asciiTheme s1 s2 := hrel s1 s2 h1 h2
  have hRf := finalize_themed emojiTheme asciiTheme s1 s2 hR
  obtain ⟨he1, he2, hn, hr, ht, hec, rec, hh1, hh2, hh3, hh4, hh5, hh6⟩ := hR
  obtain ⟨_, _, _, _, _, hecf, _⟩ := hRf
  refine ⟨ho, hn, hr, ht, ?_, ?_, ?_, hecf, ?_, rec, hh1, hh2, hh5, hh6, hh3, hh4⟩
  · rw [hh3, hh4]; simp
  · rw [hh5, hh6]; simp
  · rw [hh1, hh2]; simp
  · unfold Tapper.exit_code
    rw [hecf]

/-- Witness for C9 on the stream `["1..2\n", "ok 1\n", "not ok 2\n"]`. -/
theorem c9_theme_swap_invariant_witness :
    ((Tapper.init.drain ["1..2\n", "ok 1\n", "not ok 2\n"]).2.getD Tapper.init).numbers =
        ((Tapper.init.set_ascii.drain
          ["1..2\n", "ok 1\n", "not ok 2\n"]).2.getD Tapper.init).numbers ∧
      ((Tapper.init.drain ["1..2\n", "ok 1\n", "not ok 2\n"]).2.getD
          Tapper.init).finalize.exit_code =
        ((Tapper.init.set_ascii.drain ["1..2\n", "ok 1\n", "not ok 2\n"]).2.getD
          Tapper.init).finalize.exit_code :=
  ⟨((c9_theme_swap_invariant ["1..2\n", "ok 1\n", "not ok 2\n"]
      ((Tapper.init.drain ["1..2\n", "ok 1\n", "not ok 2\n"]).2.getD Tapper.init)
      ((Tapper.init.set_ascii.drain ["1..2\n", "ok 1\n", "not ok 2\n"]).2.getD Tapper.init)
      (by decide) (by decide)).2.1),
    ((c9_theme_swap_invariant ["1..2\n", "ok 1\n", "not ok 2\n"]
      ((Tapper.init.drain ["1..2\n", "ok 1\n", "not ok 2\n"]).2.getD Tapper.init)
      ((Tapper.init.set_ascii.drain ["1..2\n", "ok 1\n", "not ok 2\n"]).2.getD Tapper.init)
      (by decide) (by decide)).2.2.2.2.2.2.2.2.1)⟩
